import Mathlib

/-!
Verification of cf-dyndns: configuration loader, parameter resolver and
update pipeline.

A shallow embedding of `parser.go` and `main.go`.

Go strings are modelled by `String` (valid UTF-8 text), Go maps with string
keys by association lists with unique keys, a `panic` by `Except.error`.
The pieces of the Go standard library the program calls are either modelled
(`strings`, `strconv`, the line scanner) or taken as parameters
(`strconv.Quote`, `encoding/json`); the file system and the network are
inputs of the run.
-/

namespace CfDyndns

deriving instance DecidableEq for Except

/-! ## package strings -/

/-- The rune is white space in the sense of `unicode.IsSpace`. -/
def isSpace (c : Char) : Bool :=
  let n := c.toNat
  (0x09 ≤ n && n ≤ 0x0d) || n == 0x20 || n == 0x85 || n == 0xa0 || n == 0x1680 ||
  (0x2000 ≤ n && n ≤ 0x200a) || n == 0x2028 || n == 0x2029 || n == 0x202f ||
  n == 0x205f || n == 0x3000

/-- Drop the trailing white space of a rune sequence. -/
def trimRight (l : List Char) : List Char :=
  (l.reverse.dropWhile isSpace).reverse

/-- The function `strings.TrimSpace`: leading and trailing white space removed. -/
def TrimSpace (s : String) : String :=
  ⟨trimRight (s.data.dropWhile isSpace)⟩

/-- The function `strings.HasPrefix`. -/
def HasPrefix (s pre : String) : Bool :=
  pre.data.isPrefixOf s.data

/-- The function `strings.HasSuffix`. -/
def HasSuffix (s suf : String) : Bool :=
  suf.data.isSuffixOf s.data

/-- Cut a rune sequence at the first occurrence of `sep`. -/
def cutFirst (sep : Char) : List Char → Option (List Char × List Char)
  | [] => none
  | c :: cs =>
    if c = sep then some ([], cs)
    else match cutFirst sep cs with
      | none => none
      | some (a, b) => some (c :: a, b)

/-- The call `strings.SplitN(s, sep, 2)` for a one-rune separator: one part when
`sep` does not occur, otherwise the text before and after its first occurrence. -/
def SplitN2 (s : String) (sep : Char) : List String :=
  match cutFirst sep s.data with
  | none => [s]
  | some (a, b) => [⟨a⟩, ⟨b⟩]

/-- The slice `line[1 : len(line)-1]` of a line that starts and ends with a
one-byte rune. -/
def sliceInner (line : String) : String :=
  ⟨(line.data.drop 1).dropLast⟩

/-! ## Go maps with string keys -/

/-- A Go `map[string]α`: an association list. -/
abbrev GoMap (α : Type) := List (String × α)

/-- Lookup `m[k]` with the presence flag. -/
def GoMap.get? {α : Type} : GoMap α → String → Option α
  | [], _ => none
  | (k, v) :: m, key => if k = key then some v else GoMap.get? m key

/-- Lookup `m[k]` as Go evaluates it: the zero value when the key is absent. -/
def GoMap.get {α : Type} (zero : α) (m : GoMap α) (key : String) : α :=
  (GoMap.get? m key).getD zero

/-- Assignment `m[k] = v`. -/
def GoMap.set {α : Type} (m : GoMap α) (key : String) (v : α) : GoMap α :=
  (key, v) :: m.filter (fun p => p.1 ≠ key)

/-! ## package strconv -/

/-- The two causes a `strconv.NumError` wraps. -/
inductive NumCause where
  | invalid
  | outOfRange
  deriving DecidableEq, Repr

/-- Text of `strconv.ErrSyntax` and `strconv.ErrRange`. -/
def NumCause.Error : NumCause → String
  | .invalid => "invalid syntax"
  | .outOfRange => "value out of range"

/-- A `*strconv.NumError`. -/
structure NumError where
  Func : String
  Num : String
  Err : NumCause
  deriving DecidableEq, Repr

/-- The method `(*NumError).Error`; `Quote` is `strconv.Quote`. -/
def NumError.Error (Quote : String → String) (e : NumError) : String :=
  "strconv." ++ e.Func ++ ": parsing " ++ Quote e.Num ++ ": " ++ e.Err.Error

/-- The function `strconv.ParseBool`. -/
def ParseBool (str : String) : Except NumError Bool :=
  if str = "1" ∨ str = "t" ∨ str = "T" ∨ str = "TRUE" ∨ str = "true" ∨ str = "True" then
    .ok true
  else if str = "0" ∨ str = "f" ∨ str = "F" ∨ str = "FALSE" ∨ str = "false" ∨ str = "False" then
    .ok false
  else
    .error ⟨"ParseBool", str, .invalid⟩

/-- The rune is one of the decimal digits `0` to `9`. -/
def isDigit (c : Char) : Bool :=
  decide (48 ≤ c.toNat ∧ c.toNat ≤ 57)

/-- Value of a decimal digit. -/
def digitVal (c : Char) : Option Nat :=
  if isDigit c then some (c.toNat - 48) else none

/-- The digit loop of `strconv.ParseUint(s, 10, 64)`, from the accumulator `n`. -/
def parseUintLoop (n : Nat) : List Char → Except NumCause Nat
  | [] => .ok n
  | c :: cs =>
    match digitVal c with
    | none => .error .invalid
    | some d =>
      if n ≥ (2 ^ 64 - 1) / 10 + 1 then .error .outOfRange
      else if n * 10 + d > 2 ^ 64 - 1 then .error .outOfRange
      else parseUintLoop (n * 10 + d) cs

/-- The call `strconv.ParseUint(s, 10, 64)` on the runes of `s`. -/
def ParseUint (s : List Char) : Except NumCause Nat :=
  if s = [] then .error .invalid else parseUintLoop 0 s

/-- The call `strconv.ParseInt(s, 10, 0)` with a 64-bit `int`. -/
def ParseInt (s : List Char) : Except NumCause Int :=
  match s with
  | [] => .error .invalid
  | c :: cs =>
    let neg := decide (c = '-')
    let body := if c = '+' ∨ c = '-' then cs else c :: cs
    match ParseUint body with
    | .error e => .error e
    | .ok un =>
      if ¬ neg ∧ un ≥ 2 ^ 63 then .error .outOfRange
      else if neg ∧ un > 2 ^ 63 then .error .outOfRange
      else .ok (if neg then - (un : Int) else (un : Int))

/-- The function `strconv.Atoi` with a 64-bit `int`. -/
def Atoi (s : String) : Except NumError Int :=
  match ParseInt s.data with
  | .error e => .error ⟨"Atoi", s, e⟩
  | .ok n => .ok n

/-! ## parser.go -/

/-- The struct `Config`. -/
structure Config where
  BoolOptions : GoMap Bool
  StringOptions : GoMap String
  IntOptions : GoMap Int
  deriving DecidableEq, Repr

/-- What `bufio.Scanner` yields for an opened file: the lines returned by
`Scan`/`Text` until `Scan` reports false, and the value of `Err` afterwards. -/
structure Scanned where
  lines : List String
  err : Option String
  deriving DecidableEq, Repr

/-- The file system seen through `os.Open` and the scanner: an error of
`os.Open`, or the scanned lines of the file. -/
abbrev FileSystem := String → Except String Scanned

/-- State of the loop of `parseConfig`: the configuration under construction
and `currentSection`. -/
structure ParseState where
  config : Config
  currentSection : String
  deriving DecidableEq, Repr

/-- The state before the first line: three empty maps, empty section name. -/
def ParseState.init : ParseState :=
  ⟨⟨[], [], []⟩, ""⟩

/-- The `switch currentSection` of `parseConfig`. -/
def storeOption (Quote : String → String) (currentSection key value : String)
    (config : Config) : Except String Config :=
  if currentSection = "bool" then
    match ParseBool value with
    | .error err =>
      .error ("invalid bool value for key " ++ key ++ ": " ++ err.Error Quote)
    | .ok boolValue => .ok { config with BoolOptions := config.BoolOptions.set key boolValue }
  else if currentSection = "string" then
    .ok { config with StringOptions := config.StringOptions.set key value }
  else if currentSection = "int" then
    match Atoi value with
    | .error err =>
      .error ("invalid int value for key " ++ key ++ ": " ++ err.Error Quote)
    | .ok intValue => .ok { config with IntOptions := config.IntOptions.set key intValue }
  else
    .error ("unknown section: " ++ currentSection)

/-- One iteration of the loop of `parseConfig` on the scanned line `text`. -/
def parseLine (Quote : String → String) (st : ParseState) (text : String) :
    Except String ParseState :=
  let line := TrimSpace text
  if line = "" ∨ HasPrefix line "#" then .ok st
  else if HasPrefix line "[" ∧ HasSuffix line "]" then
    .ok { st with currentSection := sliceInner line }
  else
    match SplitN2 line '=' with
    | [key, value] =>
      match storeOption Quote st.currentSection key value st.config with
      | .error e => .error e
      | .ok config => .ok { st with config := config }
    | _ => .error ("invalid line: " ++ line)

/-- The loop `for scanner.Scan()` of `parseConfig`. -/
def parseLines (Quote : String → String) : ParseState → List String → Except String ParseState
  | st, [] => .ok st
  | st, text :: rest =>
    match parseLine Quote st text with
    | .error e => .error e
    | .ok st1 => parseLines Quote st1 rest

/-- The function `parseConfig`: the pair `(*Config, error)` it returns. -/
def parseConfig (Quote : String → String) (fs : FileSystem) (filename : String) :
    Option Config × Option String :=
  match fs filename with
  | .error err => (none, some err)
  | .ok file =>
    match parseLines Quote ParseState.init file.lines with
    | .error e => (none, some e)
    | .ok st =>
      match file.err with
      | some err => (none, some err)
      | none => (some st.config, none)

/-- The split function `bufio.ScanLines` run over a whole text, `cur` being the
reversed runes of the line in progress. -/
def scanLinesAux (cur : List Char) : List Char → List (List Char)
  | [] => if cur = [] then [] else [cur.reverse]
  | c :: cs =>
    if c = '\n' then cur.reverse :: scanLinesAux [] cs
    else scanLinesAux (c :: cur) cs

/-- The helper `dropCR` of `bufio.ScanLines`. -/
def dropCR (l : List Char) : List Char :=
  if l.getLast? = some '\r' then l.dropLast else l

/-- A file holding `text`, every line of which fits the scanner buffer and
which is read without error. -/
def fileOf (text : String) : Scanned :=
  ⟨(scanLinesAux [] text.data).map (fun l => ⟨dropCR l⟩), none⟩

/-- A file system with one file. -/
def oneFile (name text : String) : FileSystem :=
  fun path => if path = name then .ok (fileOf text) else .error ("open " ++ path ++ ": no such file or directory")

/-- A stand-in for `strconv.Quote` on plain text without quotes or escapes. -/
def plainQuote (s : String) : String :=
  "\"" ++ s ++ "\""

/-! ## main.go: values, requests and the standard library -/

/-- A Go `float64`, by its IEEE-754 bit pattern. -/
structure float64 where
  bits : Nat
  deriving DecidableEq, Repr

/-- A value of type `interface{}` as `encoding/json` produces it. Arrays and
objects nested inside a decoded map are kept as their JSON text: the program
never looks inside them. -/
inductive Value where
  | null
  | bool (b : Bool)
  | number (f : float64)
  | string (s : String)
  | array (json : String)
  | object (json : String)
  deriving DecidableEq, Repr

/-- A decoded `map[string]interface{}`. -/
abbrev Object := GoMap Value

/-- Name of the dynamic type, as a failed type assertion prints it. -/
def Value.typeName : Option Value → String
  | none => "nil"
  | some .null => "nil"
  | some (.bool _) => "bool"
  | some (.number _) => "float64"
  | some (.string _) => "string"
  | some (.array _) => "[]interface {}"
  | some (.object _) => "map[string]interface {}"

/-- The type assertion `m[key].(string)`; the error is the panic it raises. -/
def assertString (m : Object) (key : String) : Except String String :=
  match m.get? key with
  | some (.string s) => .ok s
  | v => .error ("interface conversion: interface {} is " ++ Value.typeName v ++ ", not string")

/-- The type assertion `m[key].(float64)`; the error is the panic it raises. -/
def assertFloat64 (m : Object) (key : String) : Except String float64 :=
  match m.get? key with
  | some (.number f) => .ok f
  | v => .error ("interface conversion: interface {} is " ++ Value.typeName v ++ ", not float64")

/-- The parts of the Go standard library taken as given: `strconv.Quote`,
`json.Unmarshal` into `Response` (yielding its `Result`), into
`map[string]interface{}` and into `[]map[string]interface{}`, and
`json.Marshal` of a `map[string]interface{}`. -/
structure StdLib where
  Quote : String → String
  UnmarshalResponse : String → Except String String
  UnmarshalObject : String → Except String Object
  UnmarshalObjects : String → Except String (List Object)
  Marshal : Object → Except String String

/-- An HTTP request handed to the client. -/
structure Request where
  Method : String
  URL : String
  Header : GoMap String
  Body : Option String
  deriving DecidableEq, Repr

/-- An `*http.Response` together with what `io.ReadAll(resp.Body)` returns. -/
structure HTTPResponse where
  StatusCode : Nat
  Body : String
  ReadErr : Option String
  deriving DecidableEq, Repr

/-- Outcome of one HTTP exchange: the request could not be built
(`http.NewRequest` failed, nothing is sent), the client returned an error, or a
response arrived. -/
inductive HTTPResult where
  | newRequestError (err : String)
  | doError (err : String)
  | response (resp : HTTPResponse)
  deriving DecidableEq, Repr

/-- The five remote exchanges of a run, one per call site of `main`. -/
structure Remote where
  verify : HTTPResult
  zones : HTTPResult
  records : HTTPResult
  ip : HTTPResult
  update : HTTPResult
  deriving DecidableEq, Repr

/-- The call sites of `main` that talk to the network, in program order. -/
inductive Step where
  | verify
  | zone
  | record
  | ip
  | update
  deriving DecidableEq, Repr

/-- A remote call issued by the run. -/
structure Call where
  step : Step
  request : Request
  deriving DecidableEq, Repr

/-- The fixed order of the remote calls. -/
def pipelineOrder : List Step :=
  [.verify, .zone, .record, .ip, .update]

/-- Observable behaviour of a run: the lines printed, the remote calls issued
and the way it ends (`ok` for a normal return, `error` for the panic value). -/
structure Run where
  log : List String
  trace : List Call
  outcome : Except String Unit
  deriving DecidableEq, Repr

/-- Put output and calls made earlier in front of the rest of a run. -/
def Run.after (log : List String) (calls : List Call) (r : Run) : Run :=
  ⟨log ++ r.log, calls ++ r.trace, r.outcome⟩

/-- A run that panics here. -/
def Run.panic (msg : String) : Run :=
  ⟨[], [], .error msg⟩

/-- The constant `cfapivalidateurl`. -/
def cfapivalidateurl : String :=
  "https://api.cloudflare.com/client/v4/user/tokens/verify"

/-- The format `cfgetzoneurl` applied to its argument. -/
def cfgetzoneurl (name : String) : String :=
  "https://api.cloudflare.com/client/v4/zones?name=" ++ name

/-- The format `cfgetrecordurl` applied to its arguments. -/
def cfgetrecordurl (zoneID name : String) : String :=
  "https://api.cloudflare.com/client/v4/zones/" ++ zoneID ++ "/dns_records?name=" ++ name

/-- The format `cfupdaterecordurl` applied to its arguments. -/
def cfupdaterecordurl (zoneID recordID : String) : String :=
  "https://api.cloudflare.com/client/v4/zones/" ++ zoneID ++ "/dns_records/" ++ recordID

/-- The verb `%v` on a `map[string]string` whose entries are listed by
increasing key, the order in which `fmt` prints a map. -/
def fmtMap (m : GoMap String) : String :=
  "map[" ++ " ".intercalate (m.map (fun p => p.1 ++ ":" ++ p.2)) ++ "]"

/-- The function `quietLog`: the lines it prints. -/
def quietLog (quiet : Bool) (msg : String) : List String :=
  if quiet then [] else [msg]

/-- The function `checkFlag`: the value left in `*flag`, or the panic. -/
def checkFlag (flag key : String) (options : GoMap String) (errMsg : String) :
    Except String String :=
  let flag1 := if flag = "" then options.get "" key else flag
  if flag1 = "" then .error errMsg else .ok flag1

/-- What `getJSON` does: lines printed, request issued if any, and the value
decoded into `out` or the error returned. -/
structure Fetched (α : Type) where
  log : List String
  calls : List Request
  ret : Except String α

/-- The function `getJSON`; `decode` is `json.Unmarshal` into the type of `out`
and `net` the outcome of the exchange. -/
def getJSON {α : Type} (std : StdLib) (quiet : Bool) (url : String) (headers : GoMap String)
    (decode : String → Except String α) (net : HTTPResult) : Fetched α :=
  let log0 := quietLog quiet ("Sending GET request to " ++ url ++ " with headers " ++ fmtMap headers)
  let req : Request := ⟨"GET", url, headers, none⟩
  match net with
  | .newRequestError err => ⟨log0, [], .error err⟩
  | .doError err => ⟨log0, [req], .error err⟩
  | .response resp =>
    if resp.StatusCode ≠ 200 then
      ⟨log0 ++ quietLog quiet ("Received non-OK status code " ++ toString resp.StatusCode ++
          " with body: " ++ resp.Body),
        [req], .error ("HTTP request failed with status " ++ toString resp.StatusCode)⟩
    else
      match resp.ReadErr with
      | some err => ⟨log0, [req], .error err⟩
      | none =>
        match std.UnmarshalResponse resp.Body with
        | .error err => ⟨log0, [req], .error err⟩
        | .ok result => ⟨log0, [req], decode result⟩

/-! ## main.go: the pipeline -/

/-- The flags as given on the command line; `none` for a flag that is absent. -/
structure CommandLine where
  optfile : Option String
  quiet : Option Bool
  cfapikey : Option String
  cfemail : Option String
  domain : Option String
  record : Option String
  ipapi : Option String
  deriving DecidableEq, Repr

/-- No flag given. -/
def CommandLine.none : CommandLine :=
  ⟨.none, .none, .none, .none, .none, .none, .none⟩

/-- Value of a flag variable after `flag.Parse()`: the argument when the flag
was given, otherwise the default it was declared with. -/
def flagValue {α : Type} (dflt : α) (arg : Option α) : α :=
  arg.getD dflt

/-- Lines 162-193 of `main`: build the update map, marshal it, send the PUT. -/
def sendUpdate (std : StdLib) (quiet : Bool) (authHeaders : GoMap String)
    (zoneID recordID : String) (record0 : Object) (ip : String) (net : HTTPResult) : Run :=
  match assertString record0 "type" with
  | .error p => Run.panic p
  | .ok type =>
    match assertString record0 "name" with
    | .error p => Run.panic p
    | .ok name =>
      match assertFloat64 record0 "ttl" with
      | .error p => Run.panic p
      | .ok ttl =>
        let data : Object :=
          [("type", .string type), ("name", .string name), ("content", .string ip),
            ("ttl", .number ttl)]
        match std.Marshal data with
        | .error _ => Run.panic "Failed to marshal update data"
        | .ok dataBytes =>
          let url := cfupdaterecordurl zoneID recordID
          let log0 := quietLog quiet ("Sending PUT request to " ++ url ++ " with headers " ++
            fmtMap authHeaders ++ " and body: " ++ dataBytes)
          let req : Request :=
            ⟨"PUT", url, authHeaders.set "Content-Type" "application/json", some dataBytes⟩
          match net with
          | .newRequestError _ => ⟨log0, [], .error "Failed to create update request"⟩
          | .doError _ =>
            ⟨log0, [⟨.update, req⟩],
              .error "runtime error: invalid memory address or nil pointer dereference"⟩
          | .response resp =>
            if resp.StatusCode ≠ 200 then
              ⟨log0 ++ quietLog quiet ("Received non-OK status code " ++
                  toString resp.StatusCode ++ " with body: " ++ resp.Body),
                [⟨.update, req⟩], .error "Failed to update record"⟩
            else
              ⟨log0 ++ quietLog quiet "Record updated successfully", [⟨.update, req⟩], .ok ()⟩

/-- Lines 142-160 of `main`: fetch the current IP, then go on to the update. -/
def discoverIP (std : StdLib) (quiet : Bool) (authHeaders : GoMap String) (ipapi : String)
    (zoneID recordID : String) (record0 : Object) (remote : Remote) : Run :=
  let log0 := quietLog quiet ("Sending GET request to " ++ ipapi)
  let req : Request := ⟨"GET", ipapi, [], none⟩
  match remote.ip with
  | .newRequestError _ => ⟨log0, [], .error "Failed to get current IP"⟩
  | .doError _ => ⟨log0, [⟨.ip, req⟩], .error "Failed to get current IP"⟩
  | .response resp =>
    if resp.StatusCode ≠ 200 then
      ⟨log0 ++ quietLog quiet ("Received non-OK status code " ++ toString resp.StatusCode ++
          " with body: " ++ resp.Body),
        [⟨.ip, req⟩], .error "Failed to get current IP"⟩
    else
      match resp.ReadErr with
      | some _ => ⟨log0, [⟨.ip, req⟩], .error "Failed to read current IP"⟩
      | none =>
        Run.after (log0 ++ quietLog quiet ("Current IP: " ++ resp.Body)) [⟨.ip, req⟩]
          (sendUpdate std quiet authHeaders zoneID recordID record0 resp.Body remote.update)

/-- Lines 129-140 of `main`: look the record up, then go on to the IP. -/
def resolveRecord (std : StdLib) (quiet : Bool) (authHeaders : GoMap String)
    (record ipapi : String) (zoneID : String) (remote : Remote) : Run :=
  let got := getJSON std quiet (cfgetrecordurl zoneID record) authHeaders
    std.UnmarshalObjects remote.records
  let calls := got.calls.map (Call.mk .record)
  match got.ret with
  | .error err => ⟨got.log, calls, .error err⟩
  | .ok [] => ⟨got.log, calls, .error "Failed to get record id (no records found))"⟩
  | .ok (record0 :: _) =>
    match assertString record0 "id" with
    | .error p => ⟨got.log, calls, .error p⟩
    | .ok recordID =>
      Run.after (got.log ++ quietLog quiet ("Retrieved record id: " ++ recordID)) calls
        (discoverIP std quiet authHeaders ipapi zoneID recordID record0 remote)

/-- Lines 119-127 of `main`: look the zone up, then go on to the record. -/
def resolveZone (std : StdLib) (quiet : Bool) (authHeaders : GoMap String)
    (domain record ipapi : String) (remote : Remote) : Run :=
  let got := getJSON std quiet (cfgetzoneurl domain) authHeaders std.UnmarshalObjects remote.zones
  let calls := got.calls.map (Call.mk .zone)
  match got.ret with
  | .error _ => ⟨got.log, calls, .error "Failed to get zone id"⟩
  | .ok [] => ⟨got.log, calls, .error "Failed to get zone id"⟩
  | .ok (zone0 :: _) =>
    match assertString zone0 "id" with
    | .error p => ⟨got.log, calls, .error p⟩
    | .ok zoneID =>
      Run.after (got.log ++ quietLog quiet ("Retrieved zone id: " ++ zoneID)) calls
        (resolveRecord std quiet authHeaders record ipapi zoneID remote)

/-- The map `authHeaders` of `main`, listed by increasing key. -/
def authHeaders (cfemail cfapikey : String) : GoMap String :=
  [("Authorization", "Bearer " ++ cfapikey), ("Content-Type", "application/json"),
    ("X-Auth-Email", cfemail)]

/-- Lines 105-117 of `main` and what follows: validate the token, then go on to
the zone. The arguments are the flag variables after resolution. -/
def pipeline (std : StdLib) (quiet : Bool) (cfapikey cfemail domain record ipapi : String)
    (remote : Remote) : Run :=
  let headers := authHeaders cfemail cfapikey
  let got := getJSON std quiet cfapivalidateurl headers std.UnmarshalObject remote.verify
  let calls := got.calls.map (Call.mk .verify)
  match got.ret with
  | .error err => ⟨got.log, calls, .error err⟩
  | .ok _ =>
    Run.after (got.log ++ quietLog quiet "Cloudflare API key validated") calls
      (resolveZone std quiet headers domain record ipapi remote)

/-- The five resolved parameters. -/
structure Resolved where
  cfapikey : String
  cfemail : String
  domain : String
  record : String
  ipapi : String
  deriving DecidableEq, Repr

/-- Lines 95-99 of `main`: the five calls of `checkFlag`, in order, on the flag
variables as `flag.Parse()` left them. -/
def resolveFlags (args : CommandLine) (options : GoMap String) : Except String Resolved :=
  match checkFlag (flagValue "" args.cfapikey) "cfapikey" options
      "No Cloudflare API key provided" with
  | .error p => .error p
  | .ok cfapikey =>
    match checkFlag (flagValue "" args.cfemail) "cfemail" options
        "No Cloudflare email address provided" with
    | .error p => .error p
    | .ok cfemail =>
      match checkFlag (flagValue "" args.domain) "domain" options "No domain provided" with
      | .error p => .error p
      | .ok domain =>
        match checkFlag (flagValue "" args.record) "record" options "No record provided" with
        | .error p => .error p
        | .ok record =>
          match checkFlag (flagValue "https://api.ipify.org" args.ipapi) "ipapi" options
              "No IP API URL provided" with
          | .error p => .error p
          | .ok ipapi => .ok ⟨cfapikey, cfemail, domain, record, ipapi⟩

/-- The function `main`. -/
def main (std : StdLib) (args : CommandLine) (fs : FileSystem) (remote : Remote) : Run :=
  match parseConfig std.Quote fs (flagValue "dyndns.cfg" args.optfile) with
  | (_, some err) => Run.panic err
  | (none, none) => Run.panic "runtime error: invalid memory address or nil pointer dereference"
  | (some config, none) =>
    match resolveFlags args config.StringOptions with
    | .error p => Run.panic p
    | .ok r =>
      let quiet := if config.BoolOptions.get false "quiet" then true else flagValue false args.quiet
      pipeline std quiet r.cfapikey r.cfemail r.domain r.record r.ipapi remote

/-! ## Notions used to state the properties -/

/-- What `getJSON` leaves in `out`, or the error it returns. It depends on the
exchange and on the decoder only, not on the URL, the headers or `quiet`. -/
def decoded {α : Type} (std : StdLib) (decode : String → Except String α)
    (net : HTTPResult) : Except String α :=
  (getJSON std true "" [] decode net).ret

/-- The check `main` makes right after the call of a step passes: the
exchange gave what the next lines need (a decodable answer, a first element
with a string `id`, a readable body with status 200, a status 200). -/
def stepAccepted (std : StdLib) (remote : Remote) : Step → Bool
  | .verify =>
    match decoded std std.UnmarshalObject remote.verify with
    | .ok _ => true
    | .error _ => false
  | .zone =>
    match decoded std std.UnmarshalObjects remote.zones with
    | .ok (zone0 :: _) =>
      (match assertString zone0 "id" with
        | .ok _ => true
        | .error _ => false)
    | _ => false
  | .record =>
    match decoded std std.UnmarshalObjects remote.records with
    | .ok (record0 :: _) =>
      (match assertString record0 "id" with
        | .ok _ => true
        | .error _ => false)
    | _ => false
  | .ip =>
    match remote.ip with
    | .response resp => resp.StatusCode == 200 && resp.ReadErr == none
    | _ => false
  | .update =>
    match remote.update with
    | .response resp => resp.StatusCode == 200
    | _ => false

/-- The steps of the calls of a run, in the order they were issued. -/
def Run.steps (r : Run) : List Step :=
  r.trace.map Call.step

/-- The update (PUT) calls of a run. -/
def Run.updates (r : Run) : List Request :=
  (r.trace.filter (fun c => c.step = .update)).map Call.request

/-- Fail-fast ordering of the steps of a run against the order in which the
program can issue them: the steps form an initial part of `order`, and a step
whose answer was not accepted is the last one issued. -/
def failFast (std : StdLib) (remote : Remote) (order steps : List Step) : Prop :=
  steps <+: order ∧ ∀ s ∈ steps, stepAccepted std remote s = false → steps.getLast? = some s

/-- The request of an exchange could be built (`http.NewRequest`, or the URL
parsing of `http.Get`, did not fail), so the call is issued. -/
def requestBuilt : HTTPResult → Bool
  | .newRequestError _ => false
  | _ => true

/-- The body the IP endpoint answered with. -/
def ipBody (remote : Remote) : String :=
  match remote.ip with
  | .response resp => resp.Body
  | _ => ""

/-- The update payload can be built from the record and the IP: the record has
a string `type`, a string `name` and a numeric `ttl`, and `json.Marshal`
accepts the map made of them. -/
def payloadOK (std : StdLib) (record0 : Object) (ip : String) : Bool :=
  match assertString record0 "type" with
  | .error _ => false
  | .ok type =>
    match assertString record0 "name" with
    | .error _ => false
    | .ok name =>
      match assertFloat64 record0 "ttl" with
      | .error _ => false
      | .ok ttl =>
        match std.Marshal [("type", .string type), ("name", .string name),
            ("content", .string ip), ("ttl", .number ttl)] with
        | .error _ => false
        | .ok _ => true

/-- The update payload can be built from the first record the record lookup
returns and the body of the IP endpoint. -/
def payloadBuilt (std : StdLib) (remote : Remote) : Bool :=
  match decoded std std.UnmarshalObjects remote.records with
  | .ok (record0 :: _) => payloadOK std record0 (ipBody remote)
  | _ => false

/-- The call of a step can be issued once the program gets there: its request
can be built and, for the update, so can the payload. -/
def canIssue (std : StdLib) (remote : Remote) : Step → Bool
  | .verify => requestBuilt remote.verify
  | .zone => requestBuilt remote.zones
  | .record => requestBuilt remote.records
  | .ip => requestBuilt remote.ip
  | .update => payloadBuilt std remote && requestBuilt remote.update

/-- The calls a fail-fast run issues out of `order`: each step in turn while it
can be issued, stopping after the first one whose answer is not accepted. -/
def issuedFrom (std : StdLib) (remote : Remote) : List Step → List Step
  | [] => []
  | s :: rest =>
    if canIssue std remote s then
      s :: (if stepAccepted std remote s then issuedFrom std remote rest else [])
    else []

/-- Lines 88-103 of `main`: the configuration is loaded and the parameters are
resolved, giving the `quiet` setting and the five parameters, or the panic. -/
def startup (std : StdLib) (args : CommandLine) (fs : FileSystem) :
    Except String (Bool × Resolved) :=
  match parseConfig std.Quote fs (flagValue "dyndns.cfg" args.optfile) with
  | (_, some err) => .error err
  | (none, none) => .error "runtime error: invalid memory address or nil pointer dereference"
  | (some config, none) =>
    match resolveFlags args config.StringOptions with
    | .error p => .error p
    | .ok r =>
      .ok (if config.BoolOptions.get false "quiet" then true else flagValue false args.quiet, r)

/-- The key and value the loop of `parseConfig` hands to its `switch` for a
scanned line, when the line gets that far: it is not blank, not a comment, not
a section header, and it contains the separator. -/
def lineKV (text : String) : Option (String × String) :=
  let line := TrimSpace text
  if line = "" ∨ HasPrefix line "#" then none
  else if HasPrefix line "[" ∧ HasSuffix line "]" then none
  else
    match SplitN2 line '=' with
    | [key, value] => some (key, value)
    | _ => none

/-- The scanned line is blank or a comment. -/
def isSkipped (text : String) : Bool :=
  decide (TrimSpace text = "" ∨ HasPrefix (TrimSpace text) "#")

/-- The scanned line is a section header. -/
def isHeader (text : String) : Bool :=
  !isSkipped text && (HasPrefix (TrimSpace text) "[" && HasSuffix (TrimSpace text) "]")

/-- Value of a non-empty sequence of decimal digits. -/
def digitsValue (ds : List Char) : Option Nat :=
  if ds ≠ [] ∧ ds.all isDigit then
    some (ds.foldl (fun n c => 10 * n + (c.toNat - 48)) 0)
  else none

/-- A base-10 integer literal and the integer it denotes: an optional sign
followed by one or more decimal digits. -/
def decimalLiteral (s : String) : Option Int :=
  match s.data with
  | [] => none
  | c :: ds =>
    if c = '-' then (digitsValue ds).map (fun (m : Nat) => - Int.ofNat m)
    else if c = '+' then (digitsValue ds).map Int.ofNat
    else (digitsValue (c :: ds)).map Int.ofNat

/-- A canonical boolean literal and the boolean it denotes. -/
def booleanLiteral (s : String) : Option Bool :=
  if s ∈ ["1", "t", "T", "TRUE", "true", "True"] then some true
  else if s ∈ ["0", "f", "F", "FALSE", "false", "False"] then some false
  else none

/-! ## Example inputs -/

/-- The number 300 as a `float64`. -/
def ttl300 : float64 :=
  ⟨0x4072C00000000000⟩

/-- The record of the example: an A record for `home.example.com`. -/
def exampleRecord (content : String) : Object :=
  [("id", .string "rec1"), ("type", .string "A"), ("name", .string "home.example.com"),
    ("content", .string content), ("ttl", .number ttl300)]

/-- A standard library that knows the documents of the examples below and
rejects every other one. -/
def exampleStd : StdLib where
  Quote := plainQuote
  UnmarshalResponse := fun body =>
    if HasPrefix body "\x7b\"result\":" ∧ HasSuffix body "\x7d" then
      .ok ⟨(body.data.drop 10).dropLast⟩
    else .error "invalid character looking for beginning of value"
  UnmarshalObject := fun doc =>
    if doc = "\x7b\"status\":\"active\"\x7d" then .ok [("status", .string "active")]
    else .error "json: cannot unmarshal into Go value of type map[string]interface {}"
  UnmarshalObjects := fun doc =>
    if doc = "[]" then .ok []
    else if doc = "[\x7b\"id\":\"zoneA\"\x7d]" then .ok [[("id", .string "zoneA")]]
    else if doc = "[\x7b\"id\":\"rec1\"\x7d]" then .ok [[("id", .string "rec1")]]
    else if doc = "[\x7b\"id\":\"rec1\",\"type\":\"A\",\"name\":\"home.example.com\",\"content\":\"1.2.3.4\",\"ttl\":300\x7d]" then
      .ok [exampleRecord "1.2.3.4"]
    else .error "json: cannot unmarshal into Go value of type []map[string]interface {}"
  Marshal := fun data =>
    match data with
    | [("type", .string t), ("name", .string n), ("content", .string c), ("ttl", .number f)] =>
      if f = ttl300 then
        .ok ("\x7b\"content\":\"" ++ c ++ "\",\"name\":\"" ++ n ++ "\",\"ttl\":300,\"type\":\"" ++ t ++ "\"\x7d")
      else .error "json: unsupported value"
    | _ => .error "json: unsupported value"

/-- A response with status 200 and the given body. -/
def ok200 (body : String) : HTTPResult :=
  .response ⟨200, body, none⟩

/-- The exchanges of the example: the token is active, the zone is `zoneA`,
the record is `rec1` with content `1.2.3.4`, the IP endpoint answers `ip`. -/
def exampleRemote (ip : String) : Remote where
  verify := ok200 "\x7b\"result\":\x7b\"status\":\"active\"\x7d\x7d"
  zones := ok200 "\x7b\"result\":[\x7b\"id\":\"zoneA\"\x7d]\x7d"
  records := ok200 "\x7b\"result\":[\x7b\"id\":\"rec1\",\"type\":\"A\",\"name\":\"home.example.com\",\"content\":\"1.2.3.4\",\"ttl\":300\x7d]\x7d"
  ip := ok200 ip
  update := ok200 "\x7b\"result\":\x7b\x7d\x7d"

/-- The exchanges of the example, except that the record found has an `id` and
nothing else. -/
def remoteBareRecord : Remote :=
  { exampleRemote "5.6.7.8" with records := ok200 "\x7b\"result\":[\x7b\"id\":\"rec1\"\x7d]\x7d" }

/-- A configuration file that also names an IP-discovery endpoint. -/
def configWithIpapi : String :=
  "[string]\ncfapikey=secret\ncfemail=me@example.com\ndomain=example.com\nrecord=home.example.com\nipapi=http://ip.example/\n"

/-- A configuration file giving the four parameters that have no default. -/
def exampleConfig : String :=
  "[string]\ncfapikey=secret\ncfemail=me@example.com\ndomain=example.com\nrecord=home.example.com\n[bool]\nquiet=true\n"

/-! ## Parameter resolution -/

/-- Claim C4. `checkFlag`: a non-empty override is the resolved value whatever
the options hold; an empty override with no entry for the key panics with the
message passed for that parameter (in `main`, the message of the first missing
parameter); and a value that `checkFlag` returns is never empty, so all five
parameters are non-empty once `main` has resolved them. -/
theorem checkFlag_resolution (o k : String) (m : GoMap String) (msg : String)
    (args : CommandLine) :
    (o ≠ "" → checkFlag o k m msg = .ok o) ∧
    (o = "" → m.get? k = none → checkFlag o k m msg = .error msg) ∧
    (∀ r, checkFlag o k m msg = .ok r → r ≠ "") ∧
    (args.cfapikey = none → m.get? "cfapikey" = none →
      resolveFlags args m = .error "No Cloudflare API key provided") ∧
    (∀ r, resolveFlags args m = .ok r →
      r.cfapikey ≠ "" ∧ r.cfemail ≠ "" ∧ r.domain ≠ "" ∧ r.record ≠ "" ∧ r.ipapi ≠ "") := by
  have hne : ∀ (o k : String) (m : GoMap String) (msg r : String),
      checkFlag o k m msg = .ok r → r ≠ "" := by
    intro o k m msg r h
    unfold checkFlag at h
    by_cases h1 : (if o = "" then GoMap.get "" m k else o) = ""
    · simp [h1] at h
    · simp only [h1, if_false] at h
      cases h
      exact h1
  refine ⟨?_, ?_, hne o k m msg, ?_, ?_⟩
  · intro ho
    simp [checkFlag, ho]
  · intro ho hm
    simp [checkFlag, ho, GoMap.get, hm]
  · intro ha hm
    simp [resolveFlags, checkFlag, flagValue, ha, GoMap.get, hm]
  · intro r h
    unfold resolveFlags at h
    split at h
    · cases h
    · rename_i v1 h1
      split at h
      · cases h
      · rename_i v2 h2
        split at h
        · cases h
        · rename_i v3 h3
          split at h
          · cases h
          · rename_i v4 h4
            split at h
            · cases h
            · rename_i v5 h5
              cases h
              exact ⟨hne _ _ _ _ _ h1, hne _ _ _ _ _ h2, hne _ _ _ _ _ h3, hne _ _ _ _ _ h4,
                hne _ _ _ _ _ h5⟩

/-- Witness for C4: the override `cli-key` wins over a configured key, and an
empty override with an empty options map panics with the message given. -/
theorem checkFlag_resolution_witness :
    checkFlag "cli-key" "cfapikey" [("cfapikey", "file-key")] "No Cloudflare API key provided"
      = .ok "cli-key" ∧
    checkFlag "" "domain" [("cfapikey", "file-key")] "No domain provided"
      = .error "No domain provided" ∧
    resolveFlags CommandLine.none [] = .error "No Cloudflare API key provided" :=
  ⟨(checkFlag_resolution "cli-key" "cfapikey" [("cfapikey", "file-key")]
      "No Cloudflare API key provided" CommandLine.none).1 (by decide),
   (checkFlag_resolution "" "domain" [("cfapikey", "file-key")]
      "No domain provided" CommandLine.none).2.1 rfl rfl,
   (checkFlag_resolution "" "domain" []
      "No domain provided" CommandLine.none).2.2.2.1 rfl rfl⟩

/-! ## The provider client -/

/-- The value `getJSON` returns does not depend on the URL, the headers or
`quiet`. -/
theorem getJSON_ret {α : Type} (std : StdLib) (quiet : Bool) (url : String)
    (headers : GoMap String) (decode : String → Except String α) (net : HTTPResult) :
    (getJSON std quiet url headers decode net).ret = decoded std decode net := by
  unfold decoded getJSON
  cases net with
  | newRequestError e => rfl
  | doError e => rfl
  | response resp =>
    simp only
    split
    · rfl
    · cases resp.ReadErr with
      | some e => rfl
      | none =>
        simp only
        cases std.UnmarshalResponse resp.Body <;> rfl

/-- Counterexample for C5: two answers with status 500 and different bodies
make `getJSON` return the same error, whose text holds the status code only. -/
theorem getJSON_error_without_body :
    (getJSON exampleStd false cfapivalidateurl [] exampleStd.UnmarshalObjects
        (.response ⟨500, "upstream unavailable", none⟩)).ret
      = .error "HTTP request failed with status 500" ∧
    (getJSON exampleStd false cfapivalidateurl [] exampleStd.UnmarshalObjects
        (.response ⟨500, "database locked", none⟩)).ret
      = .error "HTTP request failed with status 500" ∧
    "upstream unavailable" ≠ "database locked" := by
  decide

/-- Claim C5, amended. On a status other than 200 `getJSON` returns the error
"HTTP request failed with status" followed by the code; the body is not in the
error, it is printed in a log line unless `quiet` is set; the request was
issued; and nothing is decoded: the result is the same for every JSON decoder. -/
theorem getJSON_non_ok_status {α : Type} (std : StdLib) (quiet : Bool) (url : String)
    (headers : GoMap String) (decode : String → Except String α) (resp : HTTPResponse)
    (hstatus : resp.StatusCode ≠ 200) :
    (getJSON std quiet url headers decode (.response resp)).ret
      = .error ("HTTP request failed with status " ++ toString resp.StatusCode) ∧
    (getJSON std quiet url headers decode (.response resp)).log
      = quietLog quiet ("Sending GET request to " ++ url ++ " with headers " ++ fmtMap headers) ++
        quietLog quiet ("Received non-OK status code " ++ toString resp.StatusCode ++
          " with body: " ++ resp.Body) ∧
    (getJSON std quiet url headers decode (.response resp)).calls
      = [⟨"GET", url, headers, none⟩] ∧
    (∀ (std1 : StdLib) (decode1 : String → Except String α),
      getJSON std1 quiet url headers decode1 (.response resp)
        = getJSON std quiet url headers decode (.response resp)) := by
  simp [getJSON, hstatus]

/-- Witness for C5: a 403 answer to an unquiet run. -/
theorem getJSON_non_ok_status_witness :
    (getJSON exampleStd false "u" [] exampleStd.UnmarshalObjects
        (.response ⟨403, "forbidden", none⟩)).ret
      = .error ("HTTP request failed with status " ++ toString 403) :=
  (getJSON_non_ok_status exampleStd false "u" [] exampleStd.UnmarshalObjects
    ⟨403, "forbidden", none⟩ (by decide)).1


/-! ## Strings and maps: basic facts -/

theorem cutFirst_not_mem {sep : Char} {l : List Char} (h : sep ∉ l) :
    cutFirst sep l = none := by
  induction l with
  | nil => rfl
  | cons c cs ih =>
    have hc : ¬ c = sep := fun e => h (by simp [e])
    have hcs : sep ∉ cs := fun e => h (by simp [e])
    simp [cutFirst, hc, ih hcs]

theorem cutFirst_append {sep : Char} {a : List Char} (b : List Char) (h : sep ∉ a) :
    cutFirst sep (a ++ sep :: b) = some (a, b) := by
  induction a with
  | nil => simp [cutFirst]
  | cons c cs ih =>
    have hc : ¬ c = sep := fun e => h (by simp [e])
    have hcs : sep ∉ cs := fun e => h (by simp [e])
    simp [cutFirst, hc, ih hcs]

theorem SplitN2_no_sep {s : String} {sep : Char} (h : sep ∉ s.data) :
    SplitN2 s sep = [s] := by
  simp [SplitN2, cutFirst_not_mem h]

theorem SplitN2_first_sep (k v : String) {sep : Char} (h : sep ∉ k.data) :
    SplitN2 (k ++ String.singleton sep ++ v) sep = [k, v] := by
  have : (k ++ String.singleton sep ++ v).data = k.data ++ sep :: v.data := by
    simp [String.data_append, String.singleton]
  simp [SplitN2, this, cutFirst_append v.data h]

theorem not_mem_trimmed {c : Char} {s : String} (h : c ∉ s.data) :
    c ∉ (TrimSpace s).data := by
  intro hc
  apply h
  have h1 : c ∈ (s.data.dropWhile isSpace).reverse.dropWhile isSpace := by
    simpa [TrimSpace, trimRight] using hc
  have h2 := (List.dropWhile_sublist isSpace).subset h1
  have h3 : c ∈ s.data.dropWhile isSpace := by simpa using h2
  exact (List.dropWhile_sublist isSpace).subset h3

theorem GoMap.get?_filter_ne {α : Type} (m : GoMap α) (key k : String) :
    GoMap.get? (m.filter (fun p => p.1 ≠ key)) k = if k = key then none else GoMap.get? m k := by
  induction m with
  | nil => simp [GoMap.get?]
  | cons p m ih =>
    obtain ⟨k1, v1⟩ := p
    by_cases h1 : k1 = key
    · by_cases h2 : k = key
      · simp_all [List.filter, GoMap.get?]
      · have h3 : ¬ k1 = k := fun e => h2 (e ▸ h1)
        simp_all [List.filter, GoMap.get?]
    · by_cases h2 : k1 = k
      · have h3 : ¬ k = key := fun e => h1 (h2 ▸ e)
        simp_all [List.filter, GoMap.get?]
      · simp_all [List.filter, GoMap.get?]

theorem GoMap.get?_set {α : Type} (m : GoMap α) (key k : String) (v : α) :
    GoMap.get? (m.set key v) k = if k = key then some v else GoMap.get? m k := by
  have hf := GoMap.get?_filter_ne m key k
  unfold GoMap.set
  by_cases h : k = key
  · subst h
    simp [GoMap.get?]
  · have h1 : ¬ key = k := fun e => h e.symm
    simp only [GoMap.get?, h1, if_false, h] at hf ⊢
    exact hf

/-! ## The loop of `parseConfig` -/

/-- One iteration, by the kind of the line. -/
theorem parseLine_eq (Quote : String → String) (st : ParseState) (text : String) :
    parseLine Quote st text =
      if isSkipped text then .ok st
      else if isHeader text then .ok { st with currentSection := sliceInner (TrimSpace text) }
      else match lineKV text with
        | some (k, v) =>
          (match storeOption Quote st.currentSection k v st.config with
            | .error e => .error e
            | .ok config => .ok { st with config := config })
        | none => .error ("invalid line: " ++ TrimSpace text) := by
  unfold parseLine lineKV isHeader isSkipped
  simp only
  by_cases h1 : TrimSpace text = "" ∨ HasPrefix (TrimSpace text) "#" = true
  · simp [h1]
  · by_cases h2 : HasPrefix (TrimSpace text) "[" = true ∧ HasSuffix (TrimSpace text) "]" = true
    · simp [h1, h2]
    · simp only [h1, h2, if_false, decide_False, Bool.not_false, Bool.true_and]
      have h3 : (HasPrefix (TrimSpace text) "[" && HasSuffix (TrimSpace text) "]") = false := by
        simpa using h2
      simp only [h3, Bool.false_eq_true, if_false]
      unfold SplitN2
      cases cutFirst '=' (TrimSpace text).data with
      | none => rfl
      | some p =>
        obtain ⟨a, b⟩ := p
        rfl

theorem parseLines_append (Quote : String → String) (st : ParseState) (a b : List String) :
    parseLines Quote st (a ++ b) =
      match parseLines Quote st a with
      | .error e => .error e
      | .ok st1 => parseLines Quote st1 b := by
  induction a generalizing st with
  | nil => rfl
  | cons l a ih =>
    simp only [List.cons_append, parseLines]
    cases parseLine Quote st l with
    | error e => rfl
    | ok st1 => exact ih st1

/-- The loop stops at the first line that fails. -/
theorem parseLines_fail_at (Quote : String → String) (st0 st : ParseState)
    (pre post : List String) (line e : String)
    (hpre : parseLines Quote st0 pre = .ok st) (hline : parseLine Quote st line = .error e) :
    parseLines Quote st0 (pre ++ line :: post) = .error e := by
  rw [parseLines_append, hpre]
  simp [parseLines, hline]

/-- A failing loop makes `parseConfig` return no configuration and the error. -/
theorem parseConfig_of_error (Quote : String → String) (fs : FileSystem) (filename : String)
    (file : Scanned) (e : String) (hfile : fs filename = .ok file)
    (h : parseLines Quote ParseState.init file.lines = .error e) :
    parseConfig Quote fs filename = (none, some e) := by
  simp [parseConfig, hfile, h]

/-- A configuration is returned only when the loop ran through all lines. -/
theorem parseConfig_ok (Quote : String → String) (fs : FileSystem) (filename : String)
    (file : Scanned) (cfg : Config) (hfile : fs filename = .ok file)
    (h : parseConfig Quote fs filename = (some cfg, none)) :
    ∃ st, parseLines Quote ParseState.init file.lines = .ok st ∧ st.config = cfg := by
  unfold parseConfig at h
  rw [hfile] at h
  simp only at h
  cases hl : parseLines Quote ParseState.init file.lines with
  | error e => rw [hl] at h; simp at h
  | ok st =>
    rw [hl] at h
    cases he : file.err with
    | some err => rw [he] at h; simp at h
    | none =>
      rw [he] at h
      simp only [Prod.mk.injEq, Option.some.injEq, and_true] at h
      exact ⟨st, rfl, h⟩


theorem lineKV_kind {text : String} {kv : String × String} (h : lineKV text = some kv) :
    isSkipped text = false ∧ isHeader text = false := by
  unfold lineKV at h
  unfold isHeader isSkipped
  simp only at h
  by_cases h1 : TrimSpace text = "" ∨ HasPrefix (TrimSpace text) "#" = true
  · simp [h1] at h
  · by_cases h2 : HasPrefix (TrimSpace text) "[" = true ∧ HasSuffix (TrimSpace text) "]" = true
    · simp [h1, h2] at h
    · have h3 : (HasPrefix (TrimSpace text) "[" && HasSuffix (TrimSpace text) "]") = false := by
        simpa using h2
      simp [h1, h3]

/-- A line handed to the `switch` is processed by `storeOption`. -/
theorem parseLine_kv (Quote : String → String) (st : ParseState) {text k v : String}
    (h : lineKV text = some (k, v)) :
    parseLine Quote st text =
      match storeOption Quote st.currentSection k v st.config with
      | .error e => .error e
      | .ok config => .ok { st with config := config } := by
  rw [parseLine_eq, (lineKV_kind h).1, (lineKV_kind h).2, h]
  simp

theorem parseLine_header (Quote : String → String) (st : ParseState) {text : String}
    (h : isHeader text = true) :
    parseLine Quote st text = .ok { st with currentSection := sliceInner (TrimSpace text) } := by
  have h1 : isSkipped text = false := by
    unfold isHeader at h
    cases hs : isSkipped text
    · rfl
    · simp [hs] at h
  rw [parseLine_eq, h1, h]
  simp

theorem parseLine_section (Quote : String → String) {st st1 : ParseState} {text : String}
    (h : parseLine Quote st text = .ok st1) (hh : isHeader text = false) :
    st1.currentSection = st.currentSection := by
  rw [parseLine_eq, hh] at h
  cases hs : isSkipped text
  · rw [hs] at h
    simp only [Bool.false_eq_true, if_false] at h
    cases hkv : lineKV text with
    | none => rw [hkv] at h; cases h
    | some kv =>
      obtain ⟨k, v⟩ := kv
      rw [hkv] at h
      simp only at h
      cases hso : storeOption Quote st.currentSection k v st.config with
      | error e => rw [hso] at h; cases h
      | ok c => rw [hso] at h; cases h; rfl
  · rw [hs] at h
    simp only [if_true] at h
    cases h
    rfl

theorem parseLines_section (Quote : String → String) (ls : List String) :
    ∀ (st st1 : ParseState), parseLines Quote st ls = .ok st1 →
      (∀ l ∈ ls, isHeader l = false) → st1.currentSection = st.currentSection := by
  induction ls with
  | nil =>
    intro st st1 h _
    cases h
    rfl
  | cons l ls ih =>
    intro st st1 h hh
    simp only [parseLines] at h
    cases hl : parseLine Quote st l with
    | error e => rw [hl] at h; cases h
    | ok st2 =>
      rw [hl] at h
      have h1 := ih st2 st1 h (fun x hx => hh x (List.mem_cons_of_mem _ hx))
      have h2 := parseLine_section Quote hl (hh l (List.mem_cons_self _ _))
      rw [h1, h2]

theorem parseLine_invalid (Quote : String → String) (st : ParseState) (line : String)
    (hblank : TrimSpace line ≠ "") (hcomment : HasPrefix (TrimSpace line) "#" = false)
    (hheader : ¬ (HasPrefix (TrimSpace line) "[" = true ∧ HasSuffix (TrimSpace line) "]" = true))
    (heq : '=' ∉ line.data) :
    parseLine Quote st line = .error ("invalid line: " ++ TrimSpace line) := by
  have h3 : (HasPrefix (TrimSpace line) "[" && HasSuffix (TrimSpace line) "]") = false := by
    simpa using hheader
  have hs : isSkipped line = false := by simp [isSkipped, hblank, hcomment]
  have hh : isHeader line = false := by simp [isHeader, hs, h3]
  have hkv : lineKV line = none := by
    simp [lineKV, hblank, hcomment, h3, SplitN2_no_sep (not_mem_trimmed heq)]
  rw [parseLine_eq, hs, hh, hkv]
  simp

/-! ## Malformed lines and unknown sections -/

/-- Counterexample for C6: the line is written with white space around it, the
message names it without. -/
theorem invalid_line_not_verbatim :
    (fileOf "[string]\n  oops  \n").lines = ["[string]", "  oops  "] ∧
    parseConfig plainQuote (oneFile "dyndns.cfg" "[string]\n  oops  \n") "dyndns.cfg"
      = (none, some "invalid line: oops") ∧
    "invalid line: oops" ≠ "invalid line: " ++ "  oops  " := by
  decide

/-- Claim C6, amended. A file with a line that is not blank, not a comment,
not a section header and has no `=` makes `parseConfig` fail, and when the
lines before it are accepted (in whatever section they end) the error is
"invalid line: " followed by the line with its leading and trailing white
space removed. -/
theorem invalid_line_error (Quote : String → String) (fs : FileSystem) (filename : String)
    (file : Scanned) (pre post : List String) (line : String)
    (hfile : fs filename = .ok file) (hlines : file.lines = pre ++ line :: post)
    (hblank : TrimSpace line ≠ "") (hcomment : HasPrefix (TrimSpace line) "#" = false)
    (hheader : ¬ (HasPrefix (TrimSpace line) "[" = true ∧ HasSuffix (TrimSpace line) "]" = true))
    (heq : '=' ∉ line.data) :
    (∃ e, parseConfig Quote fs filename = (none, some e)) ∧
    (∀ st, parseLines Quote ParseState.init pre = .ok st →
      parseConfig Quote fs filename = (none, some ("invalid line: " ++ TrimSpace line))) := by
  have hbad := fun st => parseLine_invalid Quote st line hblank hcomment hheader heq
  constructor
  · cases hpre : parseLines Quote ParseState.init pre with
    | error e =>
      refine ⟨e, parseConfig_of_error Quote fs filename file e hfile ?_⟩
      rw [hlines, parseLines_append, hpre]
    | ok st =>
      exact ⟨_, parseConfig_of_error Quote fs filename file _ hfile
        (hlines ▸ parseLines_fail_at Quote _ st pre post line _ hpre (hbad st))⟩
  · intro st hpre
    exact parseConfig_of_error Quote fs filename file _ hfile
      (hlines ▸ parseLines_fail_at Quote _ st pre post line _ hpre (hbad st))

/-- Witness for C6: the line `  oops  ` after a `[string]` header. -/
theorem invalid_line_error_witness :
    parseConfig plainQuote (fun _ => .ok ⟨["[string]", "  oops  "], none⟩) "dyndns.cfg"
      = (none, some ("invalid line: " ++ TrimSpace "  oops  ")) :=
  (invalid_line_error plainQuote (fun _ => .ok ⟨["[string]", "  oops  "], none⟩) "dyndns.cfg"
    ⟨["[string]", "  oops  "], none⟩ ["[string]"] [] "  oops  " rfl rfl
    (by decide) (by decide) (by decide) (by decide)).2 ⟨⟨[], [], []⟩, "string"⟩ (by decide)

/-- Counterexample for C7: a header that names an unknown section, with no
`key=value` line under it, is accepted. -/
theorem unknown_header_alone_accepted :
    parseConfig plainQuote (oneFile "dyndns.cfg" "[colours]\n# nothing here\n") "dyndns.cfg"
      = (some ⟨[], [], []⟩, none) ∧
    parseConfig plainQuote (oneFile "dyndns.cfg" "[colours]\n[string]\nk=v\n") "dyndns.cfg"
      = (some ⟨[], [("k", "v")], []⟩, none) := by
  decide

/-- Claim C7, amended. When a `key=value` line is reached (the lines before it
are accepted) while the current section is not `string`, `bool` or `int`,
`parseConfig` fails with "unknown section: " and the section name and returns
no configuration, so nothing of that line is stored. The current section is
the empty name when no header precedes the line, and otherwise the name
between the brackets of the last header before it. -/
theorem unknown_section_error (Quote : String → String) (fs : FileSystem) (filename : String)
    (file : Scanned) (pre post : List String) (line k v : String) (st : ParseState)
    (hfile : fs filename = .ok file) (hlines : file.lines = pre ++ line :: post)
    (hpre : parseLines Quote ParseState.init pre = .ok st)
    (hkv : lineKV line = some (k, v)) :
    (st.currentSection ≠ "string" → st.currentSection ≠ "bool" → st.currentSection ≠ "int" →
      parseConfig Quote fs filename = (none, some ("unknown section: " ++ st.currentSection))) ∧
    ((∀ l ∈ pre, isHeader l = false) →
      parseConfig Quote fs filename = (none, some "unknown section: ")) ∧
    (∀ pre1 header rest, pre = pre1 ++ header :: rest → isHeader header = true →
      (∀ l ∈ rest, isHeader l = false) →
      st.currentSection = sliceInner (TrimSpace header)) := by
  have hunknown : st.currentSection ≠ "string" → st.currentSection ≠ "bool" →
      st.currentSection ≠ "int" →
      parseConfig Quote fs filename
        = (none, some ("unknown section: " ++ st.currentSection)) := by
    intro h1 h2 h3
    have hline : parseLine Quote st line = .error ("unknown section: " ++ st.currentSection) := by
      rw [parseLine_kv Quote st hkv]
      simp [storeOption, h1, h2, h3]
    exact parseConfig_of_error Quote fs filename file _ hfile
      (hlines ▸ parseLines_fail_at Quote _ st pre post line _ hpre hline)
  refine ⟨hunknown, ?_, ?_⟩
  · intro hno
    have hsec : st.currentSection = "" := parseLines_section Quote pre _ st hpre hno
    have := hunknown (by rw [hsec]; decide) (by rw [hsec]; decide) (by rw [hsec]; decide)
    rw [this, hsec]
    rfl
  · intro pre1 header rest hsplit hhead hrest
    rw [hsplit, parseLines_append] at hpre
    cases h1 : parseLines Quote ParseState.init pre1 with
    | error e => rw [h1] at hpre; cases hpre
    | ok st1 =>
      rw [h1] at hpre
      simp only [parseLines, parseLine_header Quote st1 hhead] at hpre
      exact parseLines_section Quote rest _ st hpre hrest

/-- Witness for C7: `k=v` under the header `[colours]`, and `k=v` as the first
line of a file. -/
theorem unknown_section_error_witness :
    parseConfig plainQuote (fun _ => .ok ⟨["[colours]", "k=v"], none⟩) "dyndns.cfg"
      = (none, some ("unknown section: " ++ "colours")) ∧
    parseConfig plainQuote (fun _ => .ok ⟨["# settings", "k=v"], none⟩) "dyndns.cfg"
      = (none, some "unknown section: ") :=
  ⟨(unknown_section_error plainQuote (fun _ => .ok ⟨["[colours]", "k=v"], none⟩) "dyndns.cfg"
      ⟨["[colours]", "k=v"], none⟩ ["[colours]"] [] "k=v" "k" "v" ⟨⟨[], [], []⟩, "colours"⟩
      rfl rfl (by decide) (by decide)).1 (by decide) (by decide) (by decide),
   (unknown_section_error plainQuote (fun _ => .ok ⟨["# settings", "k=v"], none⟩) "dyndns.cfg"
      ⟨["# settings", "k=v"], none⟩ ["# settings"] [] "k=v" "k" "v" ⟨⟨[], [], []⟩, ""⟩
      rfl rfl (by decide) (by decide)).2.1 (by decide)⟩


/-! ## package strconv against the literals it accepts -/

theorem parseUintLoop_ok (ds : List Char) :
    ∀ (n m : Nat), parseUintLoop n ds = .ok m →
      ds.all isDigit = true ∧ m = ds.foldl (fun n c => 10 * n + (c.toNat - 48)) n := by
  induction ds with
  | nil =>
    intro n m h
    simp only [parseUintLoop, Except.ok.injEq] at h
    exact ⟨rfl, h.symm⟩
  | cons c cs ih =>
    intro n m h
    unfold parseUintLoop digitVal at h
    cases hd : isDigit c
    · simp only [hd, Bool.false_eq_true, if_false] at h
      cases h
    · simp only [hd, if_true] at h
      split at h
      · cases h
      · split at h
        · cases h
        · obtain ⟨h1, h2⟩ := ih _ _ h
          refine ⟨?_, ?_⟩
          · rw [List.all_cons, hd, h1]
            rfl
          · rw [h2, List.foldl_cons, Nat.mul_comm]

theorem parseUintLoop_error (ds : List Char) :
    ∀ (n : Nat), ds.all isDigit = false → ∃ e, parseUintLoop n ds = .error e := by
  induction ds with
  | nil => intro n h; cases h
  | cons c cs ih =>
    intro n h
    unfold parseUintLoop digitVal
    cases hd : isDigit c
    · simp only [Bool.false_eq_true, if_false]
      exact ⟨_, rfl⟩
    · simp only [if_true]
      split
      · exact ⟨_, rfl⟩
      · split
        · exact ⟨_, rfl⟩
        · apply ih
          rw [List.all_cons, hd] at h
          simpa only [Bool.true_and] using h

theorem ParseUint_ok {ds : List Char} {m : Nat} (h : ParseUint ds = .ok m) :
    digitsValue ds = some m := by
  unfold ParseUint at h
  by_cases hn : ds = []
  · simp [hn] at h
  · simp only [hn, if_false] at h
    obtain ⟨h1, h2⟩ := parseUintLoop_ok ds 0 m h
    unfold digitsValue
    rw [if_pos ⟨hn, h1⟩, h2]

theorem ParseUint_error {ds : List Char} (h : digitsValue ds = none) :
    ∃ e, ParseUint ds = .error e := by
  unfold ParseUint
  by_cases hn : ds = []
  · simp [hn]
  · simp only [hn, if_false]
    apply parseUintLoop_error
    unfold digitsValue at h
    cases hall : ds.all isDigit
    · rfl
    · rw [if_pos ⟨hn, hall⟩] at h
      cases h

/-- What `Atoi` returns is the integer the literal denotes. -/
theorem Atoi_ok {s : String} {n : Int} (h : Atoi s = .ok n) : decimalLiteral s = some n := by
  unfold Atoi at h
  cases hp : ParseInt s.data with
  | error e => rw [hp] at h; cases h
  | ok m =>
    rw [hp] at h
    cases h
    unfold ParseInt at hp
    unfold decimalLiteral
    cases hs : s.data with
    | nil => rw [hs] at hp; cases hp
    | cons c cs =>
      rw [hs] at hp
      simp only at hp ⊢
      cases hu : ParseUint (if c = '+' ∨ c = '-' then cs else c :: cs) with
      | error e => rw [hu] at hp; cases hp
      | ok un =>
        rw [hu] at hp
        simp only at hp
        split at hp
        · cases hp
        · split at hp
          · cases hp
          · cases hp
            by_cases hm : c = '-'
            · subst hm
              simp only [or_true, if_true] at hu
              simp [ParseUint_ok hu]
            · by_cases hpl : c = '+'
              · subst hpl
                simp only [true_or, if_true] at hu
                simp [ParseUint_ok hu]
              · simp only [hm, hpl, or_self, if_false] at hu
                simp [hm, hpl, ParseUint_ok hu]

/-- What is not a base-10 integer literal is rejected by `Atoi`. -/
theorem Atoi_error {s : String} (h : decimalLiteral s = none) :
    ∃ e, Atoi s = .error ⟨"Atoi", s, e⟩ := by
  unfold decimalLiteral at h
  unfold Atoi ParseInt
  cases hs : s.data with
  | nil => exact ⟨_, rfl⟩
  | cons c cs =>
    rw [hs] at h
    simp only at h ⊢
    have hu : ∃ e, ParseUint (if c = '+' ∨ c = '-' then cs else c :: cs) = .error e := by
      by_cases hm : c = '-'
      · subst hm
        simp only [if_true] at h
        cases hdv : digitsValue cs with
        | some n => rw [hdv] at h; cases h
        | none => simpa using ParseUint_error hdv
      · by_cases hpl : c = '+'
        · subst hpl
          simp only [hm, if_false, if_true] at h
          cases hdv : digitsValue cs with
          | some n => rw [hdv] at h; cases h
          | none => simpa using ParseUint_error hdv
        · simp only [hm, hpl, if_false] at h
          cases hdv : digitsValue (c :: cs) with
          | some n => rw [hdv] at h; cases h
          | none => simpa [hm, hpl] using ParseUint_error hdv
    obtain ⟨e, he⟩ := hu
    rw [he]
    exact ⟨e, rfl⟩

theorem ParseBool_ok {s : String} {b : Bool} (h : ParseBool s = .ok b) :
    booleanLiteral s = some b := by
  unfold ParseBool at h
  unfold booleanLiteral
  split at h
  · rename_i h1
    cases h
    simp [h1]
  · rename_i h1
    split at h
    · rename_i h2
      cases h
      simp [h1, h2]
    · cases h

theorem ParseBool_error {s : String} (h : booleanLiteral s = none) :
    ParseBool s = .error ⟨"ParseBool", s, .invalid⟩ := by
  unfold booleanLiteral at h
  unfold ParseBool
  split at h
  · cases h
  · rename_i h1
    split at h
    · cases h
    · rename_i h2
      simp only [List.mem_cons, List.mem_singleton, List.not_mem_nil, or_false] at h1 h2
      simp [h1, h2]


theorem foldl_digits_ge (ds : List Char) :
    ∀ (n : Nat), n ≤ ds.foldl (fun n c => 10 * n + (c.toNat - 48)) n := by
  induction ds with
  | nil => intro n; exact Nat.le_refl n
  | cons c cs ih =>
    intro n
    rw [List.foldl_cons]
    exact Nat.le_trans (by omega) (ih _)

theorem parseUintLoop_complete (ds : List Char) :
    ∀ (n : Nat), ds.all isDigit = true →
      ds.foldl (fun n c => 10 * n + (c.toNat - 48)) n ≤ 2 ^ 64 - 1 →
      parseUintLoop n ds = .ok (ds.foldl (fun n c => 10 * n + (c.toNat - 48)) n) := by
  induction ds with
  | nil => intro n _ _; rfl
  | cons c cs ih =>
    intro n hall hle
    rw [List.all_cons, Bool.and_eq_true] at hall
    rw [List.foldl_cons] at hle ⊢
    have hge := foldl_digits_ge cs (10 * n + (c.toNat - 48))
    have hcut : (2 ^ 64 - 1) / 10 + 1 = 1844674407370955162 := by norm_num
    have hmax : 2 ^ 64 - 1 = 18446744073709551615 := by norm_num
    have h1 : ¬ n ≥ (2 ^ 64 - 1) / 10 + 1 := by
      rw [hcut]
      rw [hmax] at hle
      omega
    have h2 : ¬ n * 10 + (c.toNat - 48) > 2 ^ 64 - 1 := by
      rw [hmax] at hle ⊢
      omega
    unfold parseUintLoop digitVal
    simp only [hall.1, if_true, h1, h2, if_false]
    rw [Nat.mul_comm n 10]
    exact ih _ hall.2 hle

theorem ParseUint_complete {ds : List Char} {m : Nat} (h : digitsValue ds = some m)
    (hle : m ≤ 2 ^ 64 - 1) : ParseUint ds = .ok m := by
  unfold digitsValue at h
  split at h
  · rename_i hc
    cases h
    unfold ParseUint
    rw [if_neg hc.1]
    exact parseUintLoop_complete ds 0 hc.2 hle
  · cases h

/-- A literal that denotes an integer of the range of `int` is accepted by
`Atoi`, with that integer. -/
theorem Atoi_complete {s : String} {n : Int} (h : decimalLiteral s = some n)
    (hlo : -(2 ^ 63 : Int) ≤ n) (hhi : n < (2 ^ 63 : Int)) : Atoi s = .ok n := by
  have e63n : (2 : Nat) ^ 63 = 9223372036854775808 := by norm_num
  have e63i : (2 : Int) ^ 63 = 9223372036854775808 := by norm_num
  have e64n : (2 : Nat) ^ 64 - 1 = 18446744073709551615 := by norm_num
  rw [e63i] at hlo hhi
  unfold decimalLiteral at h
  unfold Atoi ParseInt
  cases hs : s.data with
  | nil => rw [hs] at h; cases h
  | cons c cs =>
    rw [hs] at h
    simp only at h ⊢
    by_cases hm : c = '-'
    · subst hm
      simp only [if_true] at h
      cases hdv : digitsValue cs with
      | none => rw [hdv] at h; cases h
      | some m =>
        rw [hdv] at h
        simp only [Option.map_some', Option.some.injEq, Int.ofNat_eq_coe] at h
        subst h
        have hu : ParseUint cs = .ok m := ParseUint_complete hdv (by rw [e64n]; omega)
        have h4 : ¬ 9223372036854775808 < m := by omega
        simp [hu, e63n, h4]
    · by_cases hpl : c = '+'
      · subst hpl
        simp only [hm, if_false, if_true] at h
        cases hdv : digitsValue cs with
        | none => rw [hdv] at h; cases h
        | some m =>
          rw [hdv] at h
          simp only [Option.map_some', Option.some.injEq, Int.ofNat_eq_coe] at h
          subst h
          have hu : ParseUint cs = .ok m := ParseUint_complete hdv (by rw [e64n]; omega)
          have h4 : ¬ 9223372036854775808 ≤ m := by omega
          simp [hu, hm, e63n, h4]
      · simp only [hm, hpl, if_false] at h
        cases hdv : digitsValue (c :: cs) with
        | none => rw [hdv] at h; cases h
        | some m =>
          rw [hdv] at h
          simp only [Option.map_some', Option.some.injEq, Int.ofNat_eq_coe] at h
          subst h
          have hu : ParseUint (c :: cs) = .ok m := ParseUint_complete hdv (by rw [e64n]; omega)
          have h4 : ¬ 9223372036854775808 ≤ m := by omega
          simp [hu, hm, hpl, e63n, h4]

theorem ParseBool_complete {s : String} {b : Bool} (h : booleanLiteral s = some b) :
    ParseBool s = .ok b := by
  cases hp : ParseBool s with
  | ok b1 =>
    have := ParseBool_ok hp
    rw [h] at this
    cases this
    rfl
  | error e =>
    unfold booleanLiteral at h
    unfold ParseBool at hp
    split at h
    · rename_i h1
      simp only [List.mem_cons, List.mem_singleton, List.not_mem_nil, or_false] at h1
      rw [if_pos h1] at hp
      cases hp
    · split at h
      · rename_i h1 h2
        simp only [List.mem_cons, List.mem_singleton, List.not_mem_nil, or_false] at h1 h2
        rw [if_neg h1, if_pos h2] at hp
        cases hp
      · cases h

/-! ## Stored options -/

/-- What a successful `switch` did, by section. -/
theorem storeOption_ok (Quote : String → String) {sec k v : String} {c c1 : Config}
    (h : storeOption Quote sec k v c = .ok c1) :
    (sec = "bool" ∧ ∃ b, ParseBool v = .ok b ∧
      c1 = { c with BoolOptions := c.BoolOptions.set k b }) ∨
    (sec = "string" ∧ c1 = { c with StringOptions := c.StringOptions.set k v }) ∨
    (sec = "int" ∧ ∃ n, Atoi v = .ok n ∧ c1 = { c with IntOptions := c.IntOptions.set k n }) := by
  unfold storeOption at h
  by_cases h1 : sec = "bool"
  · simp only [h1, if_true] at h
    cases hb : ParseBool v with
    | error e => rw [hb] at h; cases h
    | ok b =>
      rw [hb] at h
      cases h
      exact Or.inl ⟨h1, b, rfl, rfl⟩
  · by_cases h2 : sec = "string"
    · simp only [h1, h2, if_false, if_true] at h
      cases h
      exact Or.inr (Or.inl ⟨h2, rfl⟩)
    · by_cases h3 : sec = "int"
      · simp only [h1, h2, h3, if_false, if_true] at h
        cases ha : Atoi v with
        | error e => rw [ha] at h; cases h
        | ok n =>
          rw [ha] at h
          cases h
          exact Or.inr (Or.inr ⟨h3, n, rfl, rfl⟩)
      · simp only [h1, h2, h3, if_false] at h
        cases h

/-- One accepted line leaves the entry of `key` in the map of section `sec`
alone, unless it is a line of that section that assigns `key`. -/
theorem parseLine_frame (Quote : String → String) (sec key : String) {st st1 : ParseState}
    {text : String} (h : parseLine Quote st text = .ok st1)
    (hother : st.currentSection = sec → ∀ v, lineKV text ≠ some (key, v)) :
    (sec = "string" → st1.config.StringOptions.get? key = st.config.StringOptions.get? key) ∧
    (sec = "int" → st1.config.IntOptions.get? key = st.config.IntOptions.get? key) ∧
    (sec = "bool" → st1.config.BoolOptions.get? key = st.config.BoolOptions.get? key) := by
  rw [parseLine_eq] at h
  cases hs : isSkipped text
  · rw [hs] at h
    simp only [Bool.false_eq_true, if_false] at h
    cases hh : isHeader text
    · rw [hh] at h
      simp only [Bool.false_eq_true, if_false] at h
      cases hkv : lineKV text with
      | none => rw [hkv] at h; cases h
      | some kv =>
        obtain ⟨k, v⟩ := kv
        rw [hkv] at h
        simp only at h
        cases hso : storeOption Quote st.currentSection k v st.config with
        | error e => rw [hso] at h; cases h
        | ok c =>
          rw [hso] at h
          cases h
          have hne : st.currentSection = sec → ¬ key = k := by
            intro e1 e2
            exact hother e1 v (by rw [hkv, e2])
          rcases storeOption_ok Quote hso with ⟨e, b, _, rfl⟩ | ⟨e, rfl⟩ | ⟨e, n, _, rfl⟩
          · refine ⟨fun _ => rfl, fun _ => rfl, fun hsec => ?_⟩
            simp only [GoMap.get?_set, hne (e.trans hsec.symm), if_false]
          · refine ⟨fun hsec => ?_, fun _ => rfl, fun _ => rfl⟩
            simp only [GoMap.get?_set, hne (e.trans hsec.symm), if_false]
          · refine ⟨fun _ => rfl, fun hsec => ?_, fun _ => rfl⟩
            simp only [GoMap.get?_set, hne (e.trans hsec.symm), if_false]
    · rw [hh] at h
      simp only [if_true] at h
      cases h
      exact ⟨fun _ => rfl, fun _ => rfl, fun _ => rfl⟩
  · rw [hs] at h
    simp only [if_true] at h
    cases h
    exact ⟨fun _ => rfl, fun _ => rfl, fun _ => rfl⟩

/-- Accepted lines leave the entry of `key` in the map of section `sec` alone
when none of them is reached in that section with that key. -/
theorem parseLines_frame (Quote : String → String) (sec key : String) (ls : List String) :
    ∀ (st st1 : ParseState), parseLines Quote st ls = .ok st1 →
      (∀ a l b st2 v, ls = a ++ l :: b → parseLines Quote st a = .ok st2 →
        st2.currentSection = sec → lineKV l ≠ some (key, v)) →
      (sec = "string" → st1.config.StringOptions.get? key = st.config.StringOptions.get? key) ∧
      (sec = "int" → st1.config.IntOptions.get? key = st.config.IntOptions.get? key) ∧
      (sec = "bool" → st1.config.BoolOptions.get? key = st.config.BoolOptions.get? key) := by
  induction ls with
  | nil =>
    intro st st1 h _
    cases h
    exact ⟨fun _ => rfl, fun _ => rfl, fun _ => rfl⟩
  | cons l ls ih =>
    intro st st1 h hother
    simp only [parseLines] at h
    cases hl : parseLine Quote st l with
    | error e => rw [hl] at h; cases h
    | ok st2 =>
      rw [hl] at h
      have hstep := parseLine_frame Quote sec key hl
        (fun hsec v => hother [] l ls st v rfl rfl hsec)
      have hrest := ih st2 st1 h (by
        intro a l1 b st3 v hsplit ha hsec
        refine hother (l :: a) l1 b st3 v (by rw [hsplit]; rfl) ?_ hsec
        simp only [parseLines, hl]
        exact ha)
      refine ⟨fun e => ?_, fun e => ?_, fun e => ?_⟩
      · rw [hrest.1 e, hstep.1 e]
      · rw [hrest.2.1 e, hstep.2.1 e]
      · rw [hrest.2.2 e, hstep.2.2 e]

/-- The final configuration of a successful `parseConfig`, from the state
reached after a line in the middle of the file. -/
theorem parseConfig_split (Quote : String → String) (fs : FileSystem) (filename : String)
    (file : Scanned) (pre post : List String) (line : String) (st : ParseState) (cfg : Config)
    (hfile : fs filename = .ok file) (hlines : file.lines = pre ++ line :: post)
    (hpre : parseLines Quote ParseState.init pre = .ok st)
    (hok : parseConfig Quote fs filename = (some cfg, none)) :
    ∃ st1 st2, parseLine Quote st line = .ok st1 ∧ parseLines Quote st1 post = .ok st2 ∧
      st2.config = cfg := by
  obtain ⟨st2, h2, hcfg⟩ := parseConfig_ok Quote fs filename file cfg hfile hok
  rw [hlines, parseLines_append, hpre] at h2
  simp only [parseLines] at h2
  cases hl : parseLine Quote st line with
  | error e => rw [hl] at h2; cases h2
  | ok st1 =>
    rw [hl] at h2
    exact ⟨st1, st2, rfl, h2, hcfg⟩

/-- The hypothesis "no later line of the section assigns the key", moved from
the start of the file to the state after the line. -/
theorem later_lines_shift (Quote : String → String) (sec key : String)
    (pre post : List String) (line : String) (st st1 : ParseState)
    (hpre : parseLines Quote ParseState.init pre = .ok st)
    (hline : parseLine Quote st line = .ok st1)
    (hlast : ∀ a l b st2 v, post = a ++ l :: b →
      parseLines Quote ParseState.init (pre ++ line :: a) = .ok st2 →
      st2.currentSection = sec → lineKV l ≠ some (key, v)) :
    ∀ a l b st2 v, post = a ++ l :: b → parseLines Quote st1 a = .ok st2 →
      st2.currentSection = sec → lineKV l ≠ some (key, v) := by
  intro a l b st2 v hsplit ha hsec
  refine hlast a l b st2 v hsplit ?_ hsec
  rw [parseLines_append, hpre]
  simp only [parseLines, hline]
  exact ha


theorem lineKV_of_trimmed {line k v : String} (htrim : TrimSpace line = k ++ "=" ++ v)
    (hk : '=' ∉ k.data) (hcomment : HasPrefix (TrimSpace line) "#" = false)
    (hheader : ¬ (HasPrefix (TrimSpace line) "[" = true ∧ HasSuffix (TrimSpace line) "]" = true)) :
    lineKV line = some (k, v) := by
  have hne : TrimSpace line ≠ "" := by
    rw [htrim]
    intro e
    have := congrArg String.data e
    simp [String.data_append] at this
  have hsplit : SplitN2 (TrimSpace line) '=' = [k, v] := by
    rw [htrim]
    exact SplitN2_first_sep k v hk
  have h1 : ¬ (TrimSpace line = "" ∨ HasPrefix (TrimSpace line) "#" = true) := by
    simp [hne, hcomment]
  unfold lineKV
  simp only
  rw [if_neg h1, if_neg hheader, hsplit]

/-- Counterexample for C8: the value `value ` written with a trailing blank is
stored without it, and the key ` name` written with a leading blank is stored
as `name`. -/
theorem string_value_not_verbatim :
    (fileOf "[string]\nname=value \n").lines = ["[string]", "name=value "] ∧
    parseConfig plainQuote (oneFile "dyndns.cfg" "[string]\nname=value \n") "dyndns.cfg"
      = (some ⟨[], [("name", "value")], []⟩, none) ∧
    "value" ≠ "value " ∧
    parseConfig plainQuote (oneFile "dyndns.cfg" "[string]\n name=value\n") "dyndns.cfg"
      = (some ⟨[], [("name", "value")], []⟩, none) := by
  decide

/-- Claim C8, amended. Let the text of a line, with its leading and trailing
white space removed, be `k=v` with no `=` in `k`, not starting with `#` and not
enclosed in brackets, and let the line be reached in section `string`. Then a
successful `parseConfig` has `StringOptions[k] = v`, provided no later line
reached in section `string` assigns `k` again: the trimmed line is split at its
first `=` only, and the last assignment of a key is the stored one. -/
theorem string_option_stored (Quote : String → String) (fs : FileSystem) (filename : String)
    (file : Scanned) (pre post : List String) (line k v : String) (st : ParseState)
    (cfg : Config)
    (hfile : fs filename = .ok file) (hlines : file.lines = pre ++ line :: post)
    (hpre : parseLines Quote ParseState.init pre = .ok st)
    (hsec : st.currentSection = "string")
    (htrim : TrimSpace line = k ++ "=" ++ v) (hk : '=' ∉ k.data)
    (hcomment : HasPrefix (TrimSpace line) "#" = false)
    (hheader : ¬ (HasPrefix (TrimSpace line) "[" = true ∧ HasSuffix (TrimSpace line) "]" = true))
    (hlast : ∀ a l b st2 v2, post = a ++ l :: b →
      parseLines Quote ParseState.init (pre ++ line :: a) = .ok st2 →
      st2.currentSection = "string" → lineKV l ≠ some (k, v2))
    (hok : parseConfig Quote fs filename = (some cfg, none)) :
    cfg.StringOptions.get? k = some v ∧
    parseLine Quote st line
      = .ok { st with config := { st.config with
          StringOptions := st.config.StringOptions.set k v } } := by
  have hkv := lineKV_of_trimmed htrim hk hcomment hheader
  have hline : parseLine Quote st line
      = .ok { st with config := { st.config with
          StringOptions := st.config.StringOptions.set k v } } := by
    rw [parseLine_kv Quote st hkv, hsec]
    simp [storeOption]
  obtain ⟨st1, st2, h1, h2, hcfg⟩ :=
    parseConfig_split Quote fs filename file pre post line st cfg hfile hlines hpre hok
  have hframe := (parseLines_frame Quote "string" k post st1 st2 h2
    (later_lines_shift Quote "string" k pre post line st st1 hpre h1 hlast)).1 rfl
  refine ⟨?_, hline⟩
  rw [← hcfg, hframe]
  rw [hline] at h1
  cases h1
  simp [GoMap.get?_set]

/-- Witness for C8: `url = a=b ` is assigned after an earlier `url=old`, and the
last line assigns another key. -/
theorem string_option_stored_witness :
    parseConfig plainQuote
        (fun _ => .ok ⟨["[string]", "url =old", "  url = a=b ", "other=1"], none⟩) "dyndns.cfg"
      = (some ⟨[], [("other", "1"), ("url ", " a=b")], []⟩, none) ∧
    (⟨[], [("other", "1"), ("url ", " a=b")], []⟩ : Config).StringOptions.get? "url "
      = some " a=b" :=
  ⟨by decide, (string_option_stored plainQuote
    (fun _ => .ok ⟨["[string]", "url =old", "  url = a=b ", "other=1"], none⟩) "dyndns.cfg"
    ⟨["[string]", "url =old", "  url = a=b ", "other=1"], none⟩
    ["[string]", "url =old"] ["other=1"] "  url = a=b " "url " " a=b"
    ⟨⟨[], [("url ", "old")], []⟩, "string"⟩ ⟨[], [("other", "1"), ("url ", " a=b")], []⟩
    rfl rfl (by decide) rfl (by decide) (by decide) (by decide) (by decide)
    (by
      intro a l b st2 v2 hsplit _ _
      have hl : l = "other=1" := by
        cases a with
        | nil => simp at hsplit; exact hsplit.1.symm
        | cons x xs =>
          simp at hsplit
      subst hl
      have hk : lineKV "other=1" = some ("other", "1") := by decide
      rw [hk]
      intro e
      have : "other" = "url " := congrArg Prod.fst (Option.some.inj e)
      exact absurd this (by decide))
    (by decide)).1⟩


/-- Counterexample for C9: the line `n=5 ` has the value `5 `, which is no
integer literal, and yet the file is accepted and 5 is stored; the line ` n=5`
stores under `n`, and `q=true ` is accepted in section `bool`. -/
theorem typed_value_trimmed :
    (fileOf "[int]\nn=5 \n").lines = ["[int]", "n=5 "] ∧
    decimalLiteral "5 " = none ∧
    parseConfig plainQuote (oneFile "dyndns.cfg" "[int]\nn=5 \n") "dyndns.cfg"
      = (some ⟨[], [], [("n", 5)]⟩, none) ∧
    parseConfig plainQuote (oneFile "dyndns.cfg" "[int]\n n=5\n") "dyndns.cfg"
      = (some ⟨[], [], [("n", 5)]⟩, none) ∧
    booleanLiteral "true " = none ∧
    parseConfig plainQuote (oneFile "dyndns.cfg" "[bool]\nq=true \n") "dyndns.cfg"
      = (some ⟨[("q", true)], [], []⟩, none) := by
  decide

/-- Claim C9, amended. Let the text of a line, with its leading and trailing
white space removed, be `k=v` with no `=` in `k`, not starting with `#` and not
enclosed in brackets, and let the line be reached (the lines before it are
accepted). In section `int`: if `v` is a base-10 integer literal, the line is
accepted when the integer fits an `int`, and whenever `parseConfig` succeeds
the line stored the denoted integer under `k` in `IntOptions` and left the
other two maps as they were, the final `IntOptions[k]` being that integer
unless a later line of the section assigns `k` again; if `v` is no such
literal, `parseConfig` returns no configuration and an error "invalid int value
for key k: ...". In section `bool` the same holds with the boolean literals and
`BoolOptions`. -/
theorem typed_option_stored (Quote : String → String) (fs : FileSystem) (filename : String)
    (file : Scanned) (pre post : List String) (line k v : String) (st : ParseState)
    (hfile : fs filename = .ok file) (hlines : file.lines = pre ++ line :: post)
    (hpre : parseLines Quote ParseState.init pre = .ok st)
    (htrim : TrimSpace line = k ++ "=" ++ v) (hk : '=' ∉ k.data)
    (hcomment : HasPrefix (TrimSpace line) "#" = false)
    (hheader : ¬ (HasPrefix (TrimSpace line) "[" = true ∧ HasSuffix (TrimSpace line) "]" = true)) :
    (st.currentSection = "int" →
      (∀ n, decimalLiteral v = some n → -(2 ^ 63 : Int) ≤ n → n < (2 ^ 63 : Int) →
        parseLine Quote st line
          = .ok { st with config := { st.config with
              IntOptions := st.config.IntOptions.set k n } }) ∧
      (∀ n cfg, decimalLiteral v = some n → parseConfig Quote fs filename = (some cfg, none) →
        parseLine Quote st line
          = .ok { st with config := { st.config with
              IntOptions := st.config.IntOptions.set k n } } ∧
        ((∀ a l b st2 v2, post = a ++ l :: b →
            parseLines Quote ParseState.init (pre ++ line :: a) = .ok st2 →
            st2.currentSection = "int" → lineKV l ≠ some (k, v2)) →
          cfg.IntOptions.get? k = some n)) ∧
      (decimalLiteral v = none →
        ∃ detail, parseConfig Quote fs filename
          = (none, some ("invalid int value for key " ++ k ++ ": " ++ detail)))) ∧
    (st.currentSection = "bool" →
      (∀ b, booleanLiteral v = some b →
        parseLine Quote st line
          = .ok { st with config := { st.config with
              BoolOptions := st.config.BoolOptions.set k b } }) ∧
      (∀ b cfg, booleanLiteral v = some b → parseConfig Quote fs filename = (some cfg, none) →
        ((∀ a l b1 st2 v2, post = a ++ l :: b1 →
            parseLines Quote ParseState.init (pre ++ line :: a) = .ok st2 →
            st2.currentSection = "bool" → lineKV l ≠ some (k, v2)) →
          cfg.BoolOptions.get? k = some b)) ∧
      (booleanLiteral v = none →
        ∃ detail, parseConfig Quote fs filename
          = (none, some ("invalid bool value for key " ++ k ++ ": " ++ detail)))) := by
  have hkv := lineKV_of_trimmed htrim hk hcomment hheader
  constructor
  · intro hsec
    refine ⟨?_, ?_, ?_⟩
    · intro n hlit hlo hhi
      rw [parseLine_kv Quote st hkv, hsec]
      simp [storeOption, Atoi_complete hlit hlo hhi]
    · intro n cfg hlit hok
      obtain ⟨st1, st2, h1, h2, hcfg⟩ :=
        parseConfig_split Quote fs filename file pre post line st cfg hfile hlines hpre hok
      have hline : parseLine Quote st line
          = .ok { st with config := { st.config with
              IntOptions := st.config.IntOptions.set k n } } := by
        have h1c := h1
        rw [parseLine_kv Quote st hkv] at h1c
        cases hso : storeOption Quote st.currentSection k v st.config with
        | error e => rw [hso] at h1c; cases h1c
        | ok c =>
          rcases storeOption_ok Quote hso with ⟨e, _⟩ | ⟨e, _⟩ | ⟨_, m, hm, rfl⟩
          · rw [hsec] at e; exact absurd e (by decide)
          · rw [hsec] at e; exact absurd e (by decide)
          · have := Atoi_ok hm
            rw [hlit] at this
            cases this
            rw [parseLine_kv Quote st hkv, hso]
      refine ⟨hline, fun hlast => ?_⟩
      have hframe := (parseLines_frame Quote "int" k post st1 st2 h2
        (later_lines_shift Quote "int" k pre post line st st1 hpre h1 hlast)).2.1 rfl
      rw [← hcfg, hframe]
      rw [hline] at h1
      cases h1
      simp [GoMap.get?_set]
    · intro hlit
      obtain ⟨e, he⟩ := Atoi_error hlit
      refine ⟨NumError.Error Quote ⟨"Atoi", v, e⟩, ?_⟩
      have hline : parseLine Quote st line = .error ("invalid int value for key " ++ k ++ ": " ++
          NumError.Error Quote ⟨"Atoi", v, e⟩) := by
        rw [parseLine_kv Quote st hkv, hsec]
        simp [storeOption, he]
      exact parseConfig_of_error Quote fs filename file _ hfile
        (hlines ▸ parseLines_fail_at Quote _ st pre post line _ hpre hline)
  · intro hsec
    have hline : ∀ b, booleanLiteral v = some b → parseLine Quote st line
        = .ok { st with config := { st.config with
            BoolOptions := st.config.BoolOptions.set k b } } := by
      intro b hlit
      rw [parseLine_kv Quote st hkv, hsec]
      simp [storeOption, ParseBool_complete hlit]
    refine ⟨hline, ?_, ?_⟩
    · intro b cfg hlit hok hlast
      obtain ⟨st1, st2, h1, h2, hcfg⟩ :=
        parseConfig_split Quote fs filename file pre post line st cfg hfile hlines hpre hok
      have hframe := (parseLines_frame Quote "bool" k post st1 st2 h2
        (later_lines_shift Quote "bool" k pre post line st st1 hpre h1 hlast)).2.2 rfl
      rw [← hcfg, hframe]
      rw [hline b hlit] at h1
      cases h1
      simp [GoMap.get?_set]
    · intro hlit
      have he := ParseBool_error hlit
      refine ⟨NumError.Error Quote ⟨"ParseBool", v, .invalid⟩, ?_⟩
      have hline : parseLine Quote st line = .error ("invalid bool value for key " ++ k ++ ": " ++
          NumError.Error Quote ⟨"ParseBool", v, .invalid⟩) := by
        rw [parseLine_kv Quote st hkv, hsec]
        simp [storeOption, he]
      exact parseConfig_of_error Quote fs filename file _ hfile
        (hlines ▸ parseLines_fail_at Quote _ st pre post line _ hpre hline)

/-- Witness for C9: `  retries=-12 ` and `retries=12x` in section `int`,
`quiet=T` and `quiet=yes` in section `bool`. -/
theorem typed_option_stored_witness :
    parseLine plainQuote ⟨⟨[], [], []⟩, "int"⟩ "  retries=-12 "
      = .ok ⟨⟨[], [], [("retries", -12)]⟩, "int"⟩ ∧
    (∃ detail, parseConfig plainQuote (fun _ => .ok ⟨["[int]", "retries=12x"], none⟩) "dyndns.cfg"
      = (none, some ("invalid int value for key " ++ "retries" ++ ": " ++ detail))) ∧
    parseLine plainQuote ⟨⟨[], [], []⟩, "bool"⟩ "quiet=T"
      = .ok ⟨⟨[("quiet", true)], [], []⟩, "bool"⟩ ∧
    (∃ detail, parseConfig plainQuote (fun _ => .ok ⟨["[bool]", "quiet=yes"], none⟩) "dyndns.cfg"
      = (none, some ("invalid bool value for key " ++ "quiet" ++ ": " ++ detail))) :=
  ⟨((typed_option_stored plainQuote (fun _ => .ok ⟨["[int]", "  retries=-12 "], none⟩)
      "dyndns.cfg" ⟨["[int]", "  retries=-12 "], none⟩ ["[int]"] [] "  retries=-12 " "retries"
      "-12" ⟨⟨[], [], []⟩, "int"⟩ rfl rfl (by decide) (by decide) (by decide) (by decide)
      (by decide)).1 rfl).1 (-12) (by decide) (by decide) (by decide),
   ((typed_option_stored plainQuote (fun _ => .ok ⟨["[int]", "retries=12x"], none⟩) "dyndns.cfg"
      ⟨["[int]", "retries=12x"], none⟩ ["[int]"] [] "retries=12x" "retries" "12x"
      ⟨⟨[], [], []⟩, "int"⟩ rfl rfl (by decide) (by decide) (by decide) (by decide)
      (by decide)).1 rfl).2.2 (by decide),
   ((typed_option_stored plainQuote (fun _ => .ok ⟨["[bool]", "quiet=T"], none⟩) "dyndns.cfg"
      ⟨["[bool]", "quiet=T"], none⟩ ["[bool]"] [] "quiet=T" "quiet" "T"
      ⟨⟨[], [], []⟩, "bool"⟩ rfl rfl (by decide) (by decide) (by decide) (by decide)
      (by decide)).2 rfl).1 true (by decide),
   ((typed_option_stored plainQuote (fun _ => .ok ⟨["[bool]", "quiet=yes"], none⟩) "dyndns.cfg"
      ⟨["[bool]", "quiet=yes"], none⟩ ["[bool]"] [] "quiet=yes" "quiet" "yes"
      ⟨⟨[], [], []⟩, "bool"⟩ rfl rfl (by decide) (by decide) (by decide) (by decide)
      (by decide)).2 rfl).2.2 (by decide)⟩

/-! ## The pipeline: shape of a run -/

theorem getJSON_calls {α : Type} (std : StdLib) (quiet : Bool) (url : String)
    (headers : GoMap String) (decode : String → Except String α) (net : HTTPResult) :
    (getJSON std quiet url headers decode net).calls = [] ∨
    (getJSON std quiet url headers decode net).calls = [⟨"GET", url, headers, none⟩] := by
  unfold getJSON
  cases net with
  | newRequestError e => exact Or.inl rfl
  | doError e => exact Or.inr rfl
  | response resp =>
    simp only
    split
    · exact Or.inr rfl
    · cases resp.ReadErr with
      | some e => exact Or.inr rfl
      | none =>
        simp only
        cases std.UnmarshalResponse resp.Body <;> exact Or.inr rfl

theorem getJSON_ok_calls {α : Type} (std : StdLib) (quiet : Bool) (url : String)
    (headers : GoMap String) (decode : String → Except String α) (net : HTTPResult) (v : α)
    (h : (getJSON std quiet url headers decode net).ret = .ok v) :
    (getJSON std quiet url headers decode net).calls = [⟨"GET", url, headers, none⟩] := by
  unfold getJSON at h ⊢
  cases net with
  | newRequestError e => cases h
  | doError e => rfl
  | response resp =>
    simp only at h ⊢
    split
    · rfl
    · cases resp.ReadErr with
      | some e => rfl
      | none =>
        simp only
        cases std.UnmarshalResponse resp.Body <;> rfl

theorem Run.steps_after (log : List String) (calls : List Call) (r : Run) :
    (Run.after log calls r).steps = calls.map Call.step ++ r.steps := by
  simp [Run.after, Run.steps]

theorem Run.outcome_after (log : List String) (calls : List Call) (r : Run) :
    (Run.after log calls r).outcome = r.outcome := rfl

theorem Run.trace_after (log : List String) (calls : List Call) (r : Run) :
    (Run.after log calls r).trace = calls ++ r.trace := rfl

theorem failFast_nil (std : StdLib) (remote : Remote) (order : List Step) :
    failFast std remote order [] :=
  ⟨List.nil_prefix, fun s hs => absurd hs (List.not_mem_nil s)⟩

theorem failFast_single (std : StdLib) (remote : Remote) (s0 : Step) (rest : List Step) :
    failFast std remote (s0 :: rest) [s0] := by
  refine ⟨?_, ?_⟩
  · exact ⟨rest, rfl⟩
  · intro s hs _
    simp only [List.mem_singleton] at hs
    subst hs
    rfl

theorem failFast_cons (std : StdLib) (remote : Remote) (s0 : Step) (order steps : List Step)
    (hacc : stepAccepted std remote s0 = true) (h : failFast std remote order steps) :
    failFast std remote (s0 :: order) (s0 :: steps) := by
  obtain ⟨hpre, hlast⟩ := h
  refine ⟨?_, ?_⟩
  · obtain ⟨t, ht⟩ := hpre
    exact ⟨t, by rw [← ht]; rfl⟩
  · intro s hs hrej
    have hne : s ≠ s0 := by
      intro e
      rw [e, hacc] at hrej
      cases hrej
    have hmem : s ∈ steps := by
      cases hs with
      | head => exact absurd rfl hne
      | tail _ hm => exact hm
    have := hlast s hmem hrej
    cases steps with
    | nil => cases hmem
    | cons x xs =>
      rw [List.getLast?_cons_cons]
      exact this

/-- The steps of a call made through `getJSON`, labelled with its call site. -/
theorem getJSON_steps {α : Type} (std : StdLib) (quiet : Bool) (url : String)
    (headers : GoMap String) (decode : String → Except String α) (net : HTTPResult) (s : Step) :
    ((getJSON std quiet url headers decode net).calls.map (Call.mk s)).map Call.step = [] ∨
    ((getJSON std quiet url headers decode net).calls.map (Call.mk s)).map Call.step = [s] := by
  rcases getJSON_calls std quiet url headers decode net with h | h
  · left; rw [h]; rfl
  · right; rw [h]; rfl

theorem failFast_of_calls (std : StdLib) (remote : Remote) (s0 : Step) (rest steps : List Step)
    (h : steps = [] ∨ steps = [s0]) : failFast std remote (s0 :: rest) steps := by
  rcases h with h | h
  · rw [h]; exact failFast_nil std remote _
  · rw [h]; exact failFast_single std remote s0 rest

theorem sendUpdate_steps (std : StdLib) (quiet : Bool) (headers : GoMap String)
    (zoneID recordID : String) (record0 : Object) (ip : String) (net : HTTPResult) :
    (sendUpdate std quiet headers zoneID recordID record0 ip net).steps = [] ∨
    (sendUpdate std quiet headers zoneID recordID record0 ip net).steps = [.update] := by
  unfold sendUpdate
  cases assertString record0 "type" with
  | error p => exact Or.inl rfl
  | ok type =>
    cases assertString record0 "name" with
    | error p => exact Or.inl rfl
    | ok name =>
      cases assertFloat64 record0 "ttl" with
      | error p => exact Or.inl rfl
      | ok ttl =>
        simp only
        cases std.Marshal _ with
        | error e => exact Or.inl rfl
        | ok dataBytes =>
          simp only
          cases net with
          | newRequestError e => exact Or.inl rfl
          | doError e => exact Or.inr rfl
          | response resp =>
            simp only
            split <;> exact Or.inr rfl

theorem discoverIP_failFast (std : StdLib) (quiet : Bool) (headers : GoMap String)
    (ipapi zoneID recordID : String) (record0 : Object) (remote : Remote) :
    failFast std remote [.ip, .update]
      (discoverIP std quiet headers ipapi zoneID recordID record0 remote).steps := by
  unfold discoverIP
  cases hip : remote.ip with
  | newRequestError e => exact failFast_nil std remote _
  | doError e => exact failFast_single std remote _ _
  | response resp =>
    simp only
    by_cases hst : resp.StatusCode = 200
    · simp only [hst, ne_eq, not_true_eq_false, if_false]
      cases hre : resp.ReadErr with
      | some e => exact failFast_single std remote _ _
      | none =>
        simp only
        rw [Run.steps_after]
        have hacc : stepAccepted std remote .ip = true := by
          simp [stepAccepted, hip, hst, hre]
        exact failFast_cons std remote .ip [.update] _ hacc
          (failFast_of_calls std remote .update [] _ (sendUpdate_steps ..))
    · simp only [hst, ne_eq, not_false_eq_true, if_true]
      exact failFast_single std remote _ _

theorem resolveRecord_failFast (std : StdLib) (quiet : Bool) (headers : GoMap String)
    (record ipapi zoneID : String) (remote : Remote) :
    failFast std remote [.record, .ip, .update]
      (resolveRecord std quiet headers record ipapi zoneID remote).steps := by
  unfold resolveRecord
  simp only
  have hc := getJSON_steps std quiet (cfgetrecordurl zoneID record) headers
    std.UnmarshalObjects remote.records .record
  cases hret : (getJSON std quiet (cfgetrecordurl zoneID record) headers
      std.UnmarshalObjects remote.records).ret with
  | error e => exact failFast_of_calls std remote _ _ _ hc
  | ok records =>
    cases records with
    | nil => exact failFast_of_calls std remote _ _ _ hc
    | cons record0 rest =>
      simp only
      cases hid : assertString record0 "id" with
      | error p => exact failFast_of_calls std remote _ _ _ hc
      | ok recordID =>
        simp only
        rw [Run.steps_after, getJSON_ok_calls _ _ _ _ _ _ _ hret]
        have hacc : stepAccepted std remote .record = true := by
          rw [getJSON_ret] at hret
          simp [stepAccepted, hret, hid]
        exact failFast_cons std remote .record _ _ hacc (discoverIP_failFast ..)

theorem resolveZone_failFast (std : StdLib) (quiet : Bool) (headers : GoMap String)
    (domain record ipapi : String) (remote : Remote) :
    failFast std remote [.zone, .record, .ip, .update]
      (resolveZone std quiet headers domain record ipapi remote).steps := by
  unfold resolveZone
  simp only
  have hc := getJSON_steps std quiet (cfgetzoneurl domain) headers
    std.UnmarshalObjects remote.zones .zone
  cases hret : (getJSON std quiet (cfgetzoneurl domain) headers
      std.UnmarshalObjects remote.zones).ret with
  | error e => exact failFast_of_calls std remote _ _ _ hc
  | ok zones =>
    cases zones with
    | nil => exact failFast_of_calls std remote _ _ _ hc
    | cons zone0 rest =>
      simp only
      cases hid : assertString zone0 "id" with
      | error p => exact failFast_of_calls std remote _ _ _ hc
      | ok zoneID =>
        simp only
        rw [Run.steps_after, getJSON_ok_calls _ _ _ _ _ _ _ hret]
        have hacc : stepAccepted std remote .zone = true := by
          rw [getJSON_ret] at hret
          simp [stepAccepted, hret, hid]
        exact failFast_cons std remote .zone _ _ hacc (resolveRecord_failFast ..)

theorem pipeline_failFast (std : StdLib) (quiet : Bool)
    (cfapikey cfemail domain record ipapi : String) (remote : Remote) :
    failFast std remote pipelineOrder
      (pipeline std quiet cfapikey cfemail domain record ipapi remote).steps := by
  unfold pipeline pipelineOrder
  simp only
  have hc := getJSON_steps std quiet cfapivalidateurl (authHeaders cfemail cfapikey)
    std.UnmarshalObject remote.verify .verify
  cases hret : (getJSON std quiet cfapivalidateurl (authHeaders cfemail cfapikey)
      std.UnmarshalObject remote.verify).ret with
  | error e => exact failFast_of_calls std remote _ _ _ hc
  | ok result =>
    simp only
    rw [Run.steps_after, getJSON_ok_calls _ _ _ _ _ _ _ hret]
    have hacc : stepAccepted std remote .verify = true := by
      rw [getJSON_ret] at hret
      simp [stepAccepted, hret]
    exact failFast_cons std remote .verify _ _ hacc (resolveZone_failFast ..)

/-- A run of `main` stops before the pipeline or is a run of the pipeline. -/
theorem main_cases (std : StdLib) (args : CommandLine) (fs : FileSystem) (remote : Remote) :
    (∃ p, main std args fs remote = Run.panic p) ∨
    (∃ (quiet : Bool) (r : Resolved), main std args fs remote
      = pipeline std quiet r.cfapikey r.cfemail r.domain r.record r.ipapi remote) := by
  unfold main
  rcases hp : parseConfig std.Quote fs (flagValue "dyndns.cfg" args.optfile) with ⟨c, e⟩
  cases c with
  | none =>
    cases e with
    | some err => exact Or.inl ⟨err, rfl⟩
    | none => exact Or.inl ⟨_, rfl⟩
  | some config =>
    cases e with
    | some err => exact Or.inl ⟨err, rfl⟩
    | none =>
      simp only
      cases hr : resolveFlags args config.StringOptions with
      | error p => exact Or.inl ⟨p, rfl⟩
      | ok r => exact Or.inr ⟨_, r, rfl⟩

theorem main_failFast (std : StdLib) (args : CommandLine) (fs : FileSystem) (remote : Remote) :
    failFast std remote pipelineOrder (main std args fs remote).steps := by
  rcases main_cases std args fs remote with ⟨p, h⟩ | ⟨quiet, r, h⟩
  · rw [h]
    exact failFast_nil std remote _
  · rw [h]
    exact pipeline_failFast ..


/-! ## The pipeline: successful runs -/

theorem assertString_ok {m : Object} {key s : String} (h : assertString m key = .ok s) :
    m.get? key = some (.string s) := by
  unfold assertString at h
  split at h
  · rename_i s1 hs
    cases h
    exact hs
  · cases h

theorem assertFloat64_ok {m : Object} {key : String} {f : float64}
    (h : assertFloat64 m key = .ok f) : m.get? key = some (.number f) := by
  unfold assertFloat64 at h
  split at h
  · rename_i f1 hf
    cases h
    exact hf
  · cases h

theorem sendUpdate_ok (std : StdLib) (quiet : Bool) (headers : GoMap String)
    (zoneID recordID : String) (record0 : Object) (ip : String) (net : HTTPResult)
    (h : (sendUpdate std quiet headers zoneID recordID record0 ip net).outcome = .ok ()) :
    ∃ type name ttl body,
      record0.get? "type" = some (.string type) ∧ record0.get? "name" = some (.string name) ∧
      record0.get? "ttl" = some (.number ttl) ∧
      std.Marshal [("type", .string type), ("name", .string name), ("content", .string ip),
        ("ttl", .number ttl)] = .ok body ∧
      (sendUpdate std quiet headers zoneID recordID record0 ip net).trace
        = [⟨.update, ⟨"PUT", cfupdaterecordurl zoneID recordID,
            headers.set "Content-Type" "application/json", some body⟩⟩] := by
  unfold sendUpdate at h ⊢
  cases ht : assertString record0 "type" with
  | error p => rw [ht] at h; cases h
  | ok type =>
    cases hn : assertString record0 "name" with
    | error p => rw [ht, hn] at h; cases h
    | ok name =>
      cases hl : assertFloat64 record0 "ttl" with
      | error p => rw [ht, hn, hl] at h; cases h
      | ok ttl =>
        rw [ht, hn, hl] at h
        simp only at h ⊢
        cases hm : std.Marshal [("type", .string type), ("name", .string name),
            ("content", .string ip), ("ttl", .number ttl)] with
        | error e => rw [hm] at h; cases h
        | ok body =>
          rw [hm] at h
          simp only at h ⊢
          refine ⟨type, name, ttl, body, assertString_ok ht, assertString_ok hn,
            assertFloat64_ok hl, hm, ?_⟩
          cases net with
          | newRequestError e => cases h
          | doError e => cases h
          | response resp =>
            simp only at h ⊢
            by_cases hst : resp.StatusCode = 200
            · simp only [hst, ne_eq, not_true_eq_false, if_false]
            · simp only [hst, ne_eq, not_false_eq_true, if_true] at h
              cases h

theorem discoverIP_ok (std : StdLib) (quiet : Bool) (headers : GoMap String)
    (ipapi zoneID recordID : String) (record0 : Object) (remote : Remote)
    (h : (discoverIP std quiet headers ipapi zoneID recordID record0 remote).outcome = .ok ()) :
    ∃ resp, remote.ip = .response resp ∧ resp.StatusCode = 200 ∧ resp.ReadErr = none ∧
      (discoverIP std quiet headers ipapi zoneID recordID record0 remote).trace
        = ⟨.ip, ⟨"GET", ipapi, [], none⟩⟩ ::
          (sendUpdate std quiet headers zoneID recordID record0 resp.Body remote.update).trace ∧
      (sendUpdate std quiet headers zoneID recordID record0 resp.Body remote.update).outcome
        = .ok () := by
  unfold discoverIP at h ⊢
  cases hip : remote.ip with
  | newRequestError e => rw [hip] at h; cases h
  | doError e => rw [hip] at h; cases h
  | response resp =>
    rw [hip] at h
    simp only at h ⊢
    by_cases hst : resp.StatusCode = 200
    · simp only [hst, ne_eq, not_true_eq_false, if_false] at h ⊢
      cases hre : resp.ReadErr with
      | some e => rw [hre] at h; cases h
      | none =>
        rw [hre] at h
        simp only at h ⊢
        exact ⟨resp, rfl, hst, hre, rfl, h⟩
    · simp only [hst, ne_eq, not_false_eq_true, if_true] at h
      cases h

theorem resolveRecord_ok (std : StdLib) (quiet : Bool) (headers : GoMap String)
    (record ipapi zoneID : String) (remote : Remote)
    (h : (resolveRecord std quiet headers record ipapi zoneID remote).outcome = .ok ()) :
    ∃ record0 rest recordID,
      decoded std std.UnmarshalObjects remote.records = .ok (record0 :: rest) ∧
      record0.get? "id" = some (.string recordID) ∧
      (resolveRecord std quiet headers record ipapi zoneID remote).trace
        = ⟨.record, ⟨"GET", cfgetrecordurl zoneID record, headers, none⟩⟩ ::
          (discoverIP std quiet headers ipapi zoneID recordID record0 remote).trace ∧
      (discoverIP std quiet headers ipapi zoneID recordID record0 remote).outcome = .ok () := by
  unfold resolveRecord at h ⊢
  simp only at h ⊢
  cases hret : (getJSON std quiet (cfgetrecordurl zoneID record) headers
      std.UnmarshalObjects remote.records).ret with
  | error e => rw [hret] at h; cases h
  | ok records =>
    rw [hret] at h
    cases records with
    | nil => cases h
    | cons record0 rest =>
      simp only at h ⊢
      cases hid : assertString record0 "id" with
      | error p => rw [hid] at h; cases h
      | ok recordID =>
        rw [hid] at h
        simp only at h ⊢
        refine ⟨record0, rest, recordID, ?_, assertString_ok hid, ?_, h⟩
        · rw [← getJSON_ret std quiet (cfgetrecordurl zoneID record) headers, hret]
        · rw [Run.trace_after, getJSON_ok_calls _ _ _ _ _ _ _ hret]
          rfl

theorem resolveZone_ok (std : StdLib) (quiet : Bool) (headers : GoMap String)
    (domain record ipapi : String) (remote : Remote)
    (h : (resolveZone std quiet headers domain record ipapi remote).outcome = .ok ()) :
    ∃ zone0 rest zoneID,
      decoded std std.UnmarshalObjects remote.zones = .ok (zone0 :: rest) ∧
      zone0.get? "id" = some (.string zoneID) ∧
      (resolveZone std quiet headers domain record ipapi remote).trace
        = ⟨.zone, ⟨"GET", cfgetzoneurl domain, headers, none⟩⟩ ::
          (resolveRecord std quiet headers record ipapi zoneID remote).trace ∧
      (resolveRecord std quiet headers record ipapi zoneID remote).outcome = .ok () := by
  unfold resolveZone at h ⊢
  simp only at h ⊢
  cases hret : (getJSON std quiet (cfgetzoneurl domain) headers
      std.UnmarshalObjects remote.zones).ret with
  | error e => rw [hret] at h; cases h
  | ok zones =>
    rw [hret] at h
    cases zones with
    | nil => cases h
    | cons zone0 rest =>
      simp only at h ⊢
      cases hid : assertString zone0 "id" with
      | error p => rw [hid] at h; cases h
      | ok zoneID =>
        rw [hid] at h
        simp only at h ⊢
        refine ⟨zone0, rest, zoneID, ?_, assertString_ok hid, ?_, h⟩
        · rw [← getJSON_ret std quiet (cfgetzoneurl domain) headers, hret]
        · rw [Run.trace_after, getJSON_ok_calls _ _ _ _ _ _ _ hret]
          rfl

theorem pipeline_ok (std : StdLib) (quiet : Bool)
    (cfapikey cfemail domain record ipapi : String) (remote : Remote)
    (h : (pipeline std quiet cfapikey cfemail domain record ipapi remote).outcome = .ok ()) :
    (pipeline std quiet cfapikey cfemail domain record ipapi remote).trace
      = ⟨.verify, ⟨"GET", cfapivalidateurl, authHeaders cfemail cfapikey, none⟩⟩ ::
        (resolveZone std quiet (authHeaders cfemail cfapikey) domain record ipapi remote).trace ∧
    (resolveZone std quiet (authHeaders cfemail cfapikey) domain record ipapi remote).outcome
      = .ok () := by
  unfold pipeline at h ⊢
  simp only at h ⊢
  cases hret : (getJSON std quiet cfapivalidateurl (authHeaders cfemail cfapikey)
      std.UnmarshalObject remote.verify).ret with
  | error e => rw [hret] at h; cases h
  | ok result =>
    rw [hret] at h
    simp only at h ⊢
    refine ⟨?_, h⟩
    rw [Run.trace_after, getJSON_ok_calls _ _ _ _ _ _ _ hret]
    rfl

/-- A successful run of `main`: what the lookups returned and the five calls
it issued. -/
theorem main_ok (std : StdLib) (args : CommandLine) (fs : FileSystem) (remote : Remote)
    (h : (main std args fs remote).outcome = .ok ()) :
    ∃ (r : Resolved) (zone0 : Object) (zones : List Object) (zoneID : String)
      (record0 : Object) (records : List Object) (recordID : String) (resp : HTTPResponse)
      (type name : String) (ttl : float64) (body : String),
      decoded std std.UnmarshalObjects remote.zones = .ok (zone0 :: zones) ∧
      zone0.get? "id" = some (.string zoneID) ∧
      decoded std std.UnmarshalObjects remote.records = .ok (record0 :: records) ∧
      record0.get? "id" = some (.string recordID) ∧
      remote.ip = .response resp ∧
      record0.get? "type" = some (.string type) ∧ record0.get? "name" = some (.string name) ∧
      record0.get? "ttl" = some (.number ttl) ∧
      std.Marshal [("type", .string type), ("name", .string name),
        ("content", .string resp.Body), ("ttl", .number ttl)] = .ok body ∧
      (main std args fs remote).trace =
        [⟨.verify, ⟨"GET", cfapivalidateurl, authHeaders r.cfemail r.cfapikey, none⟩⟩,
         ⟨.zone, ⟨"GET", cfgetzoneurl r.domain, authHeaders r.cfemail r.cfapikey, none⟩⟩,
         ⟨.record, ⟨"GET", cfgetrecordurl zoneID r.record,
            authHeaders r.cfemail r.cfapikey, none⟩⟩,
         ⟨.ip, ⟨"GET", r.ipapi, [], none⟩⟩,
         ⟨.update, ⟨"PUT", cfupdaterecordurl zoneID recordID,
            (authHeaders r.cfemail r.cfapikey).set "Content-Type" "application/json",
            some body⟩⟩] := by
  rcases main_cases std args fs remote with ⟨p, hm⟩ | ⟨quiet, r, hm⟩
  · rw [hm] at h
    cases h
  · rw [hm] at h ⊢
    obtain ⟨t1, h1⟩ := pipeline_ok _ _ _ _ _ _ _ _ h
    obtain ⟨zone0, zones, zoneID, hz, hzid, t2, h2⟩ := resolveZone_ok _ _ _ _ _ _ _ h1
    obtain ⟨record0, records, recordID, hr, hrid, t3, h3⟩ := resolveRecord_ok _ _ _ _ _ _ _ h2
    obtain ⟨resp, hip, _, _, t4, h4⟩ := discoverIP_ok _ _ _ _ _ _ _ _ h3
    obtain ⟨type, name, ttl, body, ht, hn, hl, hmar, t5⟩ := sendUpdate_ok _ _ _ _ _ _ _ _ h4
    refine ⟨r, zone0, zones, zoneID, record0, records, recordID, resp, type, name, ttl, body,
      hz, hzid, hr, hrid, hip, ht, hn, hl, hmar, ?_⟩
    rw [t1, t2, t3, t4, t5]


/-! ## The update request -/

/-- Claim C1. In a successful run of `main` where the zone lookup returns a
list whose first element has id `Z`, the record lookup a list whose first
element has id `R`, type `T`, name `N` and ttl `L`, and the IP endpoint the
body `P`, the only update request is a PUT to
`https://api.cloudflare.com/client/v4/zones/Z/dns_records/R`, and its body is
the JSON encoding of the map with exactly the four entries type `T`, name `N`,
content `P`, ttl `L`; no hypothesis is made on the content of the record,
which the run does not read. -/
theorem update_request_payload (std : StdLib) (args : CommandLine) (fs : FileSystem)
    (remote : Remote) (zone0 : Object) (zones : List Object) (record0 : Object)
    (records : List Object) (Z R T N P : String) (L : float64)
    (hok : (main std args fs remote).outcome = .ok ())
    (hzones : decoded std std.UnmarshalObjects remote.zones = .ok (zone0 :: zones))
    (hZ : zone0.get? "id" = some (.string Z))
    (hrecords : decoded std std.UnmarshalObjects remote.records = .ok (record0 :: records))
    (hR : record0.get? "id" = some (.string R))
    (hT : record0.get? "type" = some (.string T))
    (hN : record0.get? "name" = some (.string N))
    (hL : record0.get? "ttl" = some (.number L))
    (hP : ∃ status err, remote.ip = .response ⟨status, P, err⟩) :
    ∃ headers body,
      (main std args fs remote).updates
        = [⟨"PUT", "https://api.cloudflare.com/client/v4/zones/" ++ Z ++ "/dns_records/" ++ R,
            headers, some body⟩] ∧
      std.Marshal [("type", .string T), ("name", .string N), ("content", .string P),
        ("ttl", .number L)] = .ok body := by
  obtain ⟨r, zone1, zones1, zoneID, record1, records1, recordID, resp, type, name, ttl, body,
    hz, hzid, hr, hrid, hip, ht, hn, hl, hmar, htrace⟩ := main_ok std args fs remote hok
  rw [hzones] at hz
  rw [hrecords] at hr
  obtain ⟨status, err, hP⟩ := hP
  rw [hP] at hip
  cases hz
  cases hr
  cases hip
  rw [hZ] at hzid
  rw [hR] at hrid
  rw [hT] at ht
  rw [hN] at hn
  rw [hL] at hl
  cases hzid
  cases hrid
  cases ht
  cases hn
  cases hl
  refine ⟨(authHeaders r.cfemail r.cfapikey).set "Content-Type" "application/json", body,
    ?_, hmar⟩
  rw [Run.updates, htrace]
  rfl

/-- Witness for C1: zone `zoneA`, record `rec1` (A, `home.example.com`,
content `1.2.3.4`, ttl 300), current IP `5.6.7.8`: the PUT goes to
`.../zones/zoneA/dns_records/rec1` with the four fields type A, name
`home.example.com`, content `5.6.7.8`, ttl 300. -/
theorem update_request_payload_witness :
    ∃ headers,
      (main exampleStd CommandLine.none (oneFile "dyndns.cfg" exampleConfig)
          (exampleRemote "5.6.7.8")).updates
        = [⟨"PUT", "https://api.cloudflare.com/client/v4/zones/zoneA/dns_records/rec1", headers,
            some "\x7b\"content\":\"5.6.7.8\",\"name\":\"home.example.com\",\"ttl\":300,\"type\":\"A\"\x7d"⟩] := by
  obtain ⟨headers, body, hput, hbody⟩ :=
    update_request_payload exampleStd CommandLine.none (oneFile "dyndns.cfg" exampleConfig)
      (exampleRemote "5.6.7.8") [("id", .string "zoneA")] [] (exampleRecord "1.2.3.4") []
      "zoneA" "rec1" "A" "home.example.com" "5.6.7.8" ttl300
      (by decide) (by decide) (by decide) (by decide) (by decide) (by decide) (by decide)
      (by decide) ⟨200, none, rfl⟩
  have hb : exampleStd.Marshal [("type", .string "A"), ("name", .string "home.example.com"),
      ("content", .string "5.6.7.8"), ("ttl", .number ttl300)]
      = .ok "\x7b\"content\":\"5.6.7.8\",\"name\":\"home.example.com\",\"ttl\":300,\"type\":\"A\"\x7d" := by
    decide
  rw [hb] at hbody
  cases hbody
  exact ⟨headers, hput⟩

/-! ## Exactly one update per successful run -/

theorem assertString_set_other (m : Object) (key other : String) (v : Value)
    (h : key ≠ other) : assertString (GoMap.set m other v) key = assertString m key := by
  unfold assertString
  rw [GoMap.get?_set, if_neg h]

theorem assertFloat64_set_other (m : Object) (key other : String) (v : Value)
    (h : key ≠ other) : assertFloat64 (GoMap.set m other v) key = assertFloat64 m key := by
  unfold assertFloat64
  rw [GoMap.get?_set, if_neg h]

/-- Claim C3. A run of `main` that ends in success issued the five calls of
the pipeline in order, exactly one of them an update; and the update step
never reads the content of the record: with any other content it behaves the
same, so equality of the discovered IP and the content changes nothing. -/
theorem one_update_per_success (std : StdLib) (args : CommandLine) (fs : FileSystem)
    (remote : Remote) (hok : (main std args fs remote).outcome = .ok ()) :
    (main std args fs remote).updates.length = 1 ∧
    (main std args fs remote).steps = pipelineOrder ∧
    (∀ (quiet : Bool) (headers : GoMap String) (zoneID recordID : String) (record0 : Object)
        (ip : String) (net : HTTPResult) (content : Value),
      sendUpdate std quiet headers zoneID recordID (GoMap.set record0 "content" content) ip net
        = sendUpdate std quiet headers zoneID recordID record0 ip net) := by
  obtain ⟨r, zone1, zones1, zoneID, record1, records1, recordID, resp, type, name, ttl, body,
    _, _, _, _, _, _, _, _, _, htrace⟩ := main_ok std args fs remote hok
  refine ⟨?_, ?_, ?_⟩
  · rw [Run.updates, htrace]
    rfl
  · rw [Run.steps, htrace]
    rfl
  · intro quiet headers zoneID recordID record0 ip net content
    unfold sendUpdate
    rw [assertString_set_other _ "type" "content" _ (by decide),
      assertString_set_other _ "name" "content" _ (by decide),
      assertFloat64_set_other _ "ttl" "content" _ (by decide)]

/-- Witness for C3: the discovered IP `1.2.3.4` equals the content of the
record, and the run still sends its one update. -/
theorem one_update_per_success_witness :
    (main exampleStd CommandLine.none (oneFile "dyndns.cfg" exampleConfig)
        (exampleRemote "1.2.3.4")).updates.length = 1 ∧
    (exampleRecord "1.2.3.4").get? "content" = some (.string "1.2.3.4") :=
  ⟨(one_update_per_success exampleStd CommandLine.none (oneFile "dyndns.cfg" exampleConfig)
      (exampleRemote "1.2.3.4") (by decide)).1, by decide⟩


/-! ## Order of the remote calls -/

theorem steps_cases {steps : List Step} (h : steps <+: pipelineOrder) :
    steps = [] ∨ steps = [.verify] ∨ steps = [.verify, .zone] ∨
    steps = [.verify, .zone, .record] ∨ steps = [.verify, .zone, .record, .ip] ∨
    steps = [.verify, .zone, .record, .ip, .update] := by
  have hlen : steps.length ≤ 5 := h.length_le
  have htake := List.prefix_iff_eq_take.mp h
  rw [htake]
  generalize steps.length = n at hlen
  interval_cases n <;> simp [pipelineOrder]

theorem failFast_verify_rejected {std : StdLib} {remote : Remote} {steps : List Step}
    (h : failFast std remote pipelineOrder steps)
    (hrej : stepAccepted std remote .verify = false) :
    Step.zone ∉ steps ∧ Step.record ∉ steps ∧ Step.ip ∉ steps ∧ Step.update ∉ steps := by
  obtain ⟨hpre, hlast⟩ := h
  rcases steps_cases hpre with e | e | e | e | e | e <;> subst e
  · decide
  · decide
  · exact absurd (hlast .verify (by decide) hrej) (by decide)
  · exact absurd (hlast .verify (by decide) hrej) (by decide)
  · exact absurd (hlast .verify (by decide) hrej) (by decide)
  · exact absurd (hlast .verify (by decide) hrej) (by decide)

theorem failFast_zone_rejected {std : StdLib} {remote : Remote} {steps : List Step}
    (h : failFast std remote pipelineOrder steps)
    (hrej : stepAccepted std remote .zone = false) :
    Step.record ∉ steps ∧ Step.ip ∉ steps ∧ Step.update ∉ steps := by
  obtain ⟨hpre, hlast⟩ := h
  rcases steps_cases hpre with e | e | e | e | e | e <;> subst e
  · decide
  · decide
  · decide
  · exact absurd (hlast .zone (by decide) hrej) (by decide)
  · exact absurd (hlast .zone (by decide) hrej) (by decide)
  · exact absurd (hlast .zone (by decide) hrej) (by decide)

theorem failFast_ip_rejected {std : StdLib} {remote : Remote} {steps : List Step}
    (h : failFast std remote pipelineOrder steps)
    (hrej : stepAccepted std remote .ip = false) :
    Step.update ∉ steps ∧ (Step.ip ∈ steps → steps = [.verify, .zone, .record, .ip]) := by
  obtain ⟨hpre, hlast⟩ := h
  rcases steps_cases hpre with e | e | e | e | e | e <;> subst e
  · decide
  · decide
  · decide
  · decide
  · decide
  · exact absurd (hlast .ip (by decide) hrej) (by decide)

/-- Counterexample for C2: the record found has no `type`. Every call issued
gets an answer the program accepts, the IP endpoint answers 200, and yet the
run aborts after that call, before any update request: the step that fails is
not a call of the trace. -/
theorem abort_after_accepted_call :
    (main exampleStd CommandLine.none (oneFile "dyndns.cfg" exampleConfig)
        remoteBareRecord).outcome
      = .error "interface conversion: interface {} is nil, not string" ∧
    (main exampleStd CommandLine.none (oneFile "dyndns.cfg" exampleConfig)
        remoteBareRecord).steps = [.verify, .zone, .record, .ip] ∧
    remoteBareRecord.ip = .response ⟨200, "5.6.7.8", none⟩ ∧
    stepAccepted exampleStd remoteBareRecord .verify = true ∧
    stepAccepted exampleStd remoteBareRecord .zone = true ∧
    stepAccepted exampleStd remoteBareRecord .record = true ∧
    stepAccepted exampleStd remoteBareRecord .ip = true := by
  decide

/-! ## The pipeline: which calls are issued, and when the run succeeds -/

theorem getJSON_calls_eq {α : Type} (std : StdLib) (quiet : Bool) (url : String)
    (headers : GoMap String) (decode : String → Except String α) (net : HTTPResult) :
    (getJSON std quiet url headers decode net).calls
      = if requestBuilt net then [⟨"GET", url, headers, none⟩] else [] := by
  unfold getJSON
  cases net with
  | newRequestError e => rfl
  | doError e => rfl
  | response resp =>
    simp only [requestBuilt, if_true]
    split
    · rfl
    · cases resp.ReadErr with
      | some e => rfl
      | none =>
        simp only
        cases std.UnmarshalResponse resp.Body <;> rfl

theorem decoded_ok_built {α : Type} (std : StdLib) (decode : String → Except String α)
    (net : HTTPResult) (v : α) (h : decoded std decode net = .ok v) :
    requestBuilt net = true := by
  cases net with
  | newRequestError e => cases h
  | doError e => rfl
  | response resp => rfl

/-- The update step: the PUT is issued when the payload and the request can be
built, and the step succeeds when moreover the answer has status 200. -/
theorem sendUpdate_spec (std : StdLib) (quiet : Bool) (headers : GoMap String)
    (zoneID recordID : String) (record0 : Object) (ip : String) (remote : Remote) :
    (sendUpdate std quiet headers zoneID recordID record0 ip remote.update).steps
      = (if payloadOK std record0 ip && requestBuilt remote.update then [.update] else []) ∧
    ((sendUpdate std quiet headers zoneID recordID record0 ip remote.update).outcome = .ok () ↔
      payloadOK std record0 ip = true ∧ stepAccepted std remote .update = true) := by
  unfold sendUpdate payloadOK
  cases assertString record0 "type" with
  | error p => simp [Run.panic, Run.steps]
  | ok type =>
    cases assertString record0 "name" with
    | error p => simp [Run.panic, Run.steps]
    | ok name =>
      cases assertFloat64 record0 "ttl" with
      | error p => simp [Run.panic, Run.steps]
      | ok ttl =>
        simp only
        have hcases : (∃ e, std.Marshal [("type", .string type), ("name", .string name),
              ("content", .string ip), ("ttl", .number ttl)] = .error e) ∨
            (∃ b, std.Marshal [("type", .string type), ("name", .string name),
              ("content", .string ip), ("ttl", .number ttl)] = .ok b) := by
          cases std.Marshal [("type", .string type), ("name", .string name),
              ("content", .string ip), ("ttl", .number ttl)] with
          | error e => exact Or.inl ⟨e, rfl⟩
          | ok b => exact Or.inr ⟨b, rfl⟩
        rcases hcases with ⟨e, hm⟩ | ⟨dataBytes, hm⟩
        · simp [hm, Run.panic, Run.steps]
        · simp only [hm]
          cases hnet : remote.update with
          | newRequestError e => simp [Run.steps, requestBuilt, stepAccepted, hnet]
          | doError e => simp [Run.steps, requestBuilt, stepAccepted, hnet]
          | response resp =>
            by_cases hst : resp.StatusCode = 200
            · simp [Run.steps, requestBuilt, stepAccepted, hnet, hst]
            · simp [Run.steps, requestBuilt, stepAccepted, hnet, hst]

theorem discoverIP_spec (std : StdLib) (quiet : Bool) (headers : GoMap String)
    (ipapi zoneID recordID : String) (record0 : Object) (remote : Remote) :
    (discoverIP std quiet headers ipapi zoneID recordID record0 remote).steps
      = (if requestBuilt remote.ip then
          .ip :: (if stepAccepted std remote .ip then
            (if payloadOK std record0 (ipBody remote) && requestBuilt remote.update
              then [.update] else [])
            else [])
        else []) ∧
    ((discoverIP std quiet headers ipapi zoneID recordID record0 remote).outcome = .ok () ↔
      stepAccepted std remote .ip = true ∧ payloadOK std record0 (ipBody remote) = true ∧
      stepAccepted std remote .update = true) := by
  unfold discoverIP
  cases hip : remote.ip with
  | newRequestError e => simp [Run.steps, requestBuilt, stepAccepted, hip]
  | doError e => simp [Run.steps, requestBuilt, stepAccepted, hip]
  | response resp =>
    simp only
    by_cases hst : resp.StatusCode = 200
    · simp only [hst, ne_eq, not_true_eq_false, if_false]
      cases hre : resp.ReadErr with
      | some e => simp [Run.steps, requestBuilt, stepAccepted, hip, hst, hre]
      | none =>
        simp only
        have hacc : stepAccepted std remote .ip = true := by
          simp [stepAccepted, hip, hst, hre]
        have hbody : ipBody remote = resp.Body := by simp [ipBody, hip]
        obtain ⟨h1, h2⟩ := sendUpdate_spec std quiet headers zoneID recordID record0
          resp.Body remote
        rw [Run.steps_after, Run.outcome_after, h1, h2, hacc, hbody]
        simp [requestBuilt]
    · simp [Run.steps, requestBuilt, stepAccepted, hip, hst]

theorem resolveRecord_spec (std : StdLib) (quiet : Bool) (headers : GoMap String)
    (record ipapi zoneID : String) (remote : Remote) :
    (resolveRecord std quiet headers record ipapi zoneID remote).steps
      = issuedFrom std remote [.record, .ip, .update] ∧
    ((resolveRecord std quiet headers record ipapi zoneID remote).outcome = .ok () ↔
      stepAccepted std remote .record = true ∧ stepAccepted std remote .ip = true ∧
      payloadBuilt std remote = true ∧ stepAccepted std remote .update = true) := by
  unfold resolveRecord
  simp only
  rw [getJSON_ret, getJSON_calls_eq]
  cases hdec : decoded std std.UnmarshalObjects remote.records with
  | error e =>
    cases hb : requestBuilt remote.records <;>
      simp [Run.steps, issuedFrom, canIssue, stepAccepted, hdec, hb]
  | ok records =>
    have hb := decoded_ok_built std _ _ _ hdec
    cases records with
    | nil => simp [Run.steps, issuedFrom, canIssue, stepAccepted, hdec, hb]
    | cons record0 rest =>
      simp only
      cases hid : assertString record0 "id" with
      | error p => simp [Run.steps, issuedFrom, canIssue, stepAccepted, hdec, hb, hid]
      | ok recordID =>
        simp only
        obtain ⟨h1, h2⟩ := discoverIP_spec std quiet headers ipapi zoneID recordID record0 remote
        rw [Run.steps_after, Run.outcome_after, h1, h2]
        have hacc : stepAccepted std remote .record = true := by
          simp [stepAccepted, hdec, hid]
        have hpay : payloadBuilt std remote = payloadOK std record0 (ipBody remote) := by
          simp [payloadBuilt, hdec]
        simp only [issuedFrom, canIssue, hb, hacc, hpay, if_true, List.map, true_and]
        constructor
        · cases requestBuilt remote.ip <;> cases stepAccepted std remote .ip <;>
            cases payloadOK std record0 (ipBody remote) <;> cases requestBuilt remote.update <;>
            cases stepAccepted std remote .update <;> rfl
        · trivial

theorem resolveZone_spec (std : StdLib) (quiet : Bool) (headers : GoMap String)
    (domain record ipapi : String) (remote : Remote) :
    (resolveZone std quiet headers domain record ipapi remote).steps
      = issuedFrom std remote [.zone, .record, .ip, .update] ∧
    ((resolveZone std quiet headers domain record ipapi remote).outcome = .ok () ↔
      stepAccepted std remote .zone = true ∧ stepAccepted std remote .record = true ∧
      stepAccepted std remote .ip = true ∧ payloadBuilt std remote = true ∧
      stepAccepted std remote .update = true) := by
  unfold resolveZone
  simp only
  rw [getJSON_ret, getJSON_calls_eq]
  cases hdec : decoded std std.UnmarshalObjects remote.zones with
  | error e =>
    cases hb : requestBuilt remote.zones <;>
      simp [Run.steps, issuedFrom, canIssue, stepAccepted, hdec, hb]
  | ok zones =>
    have hb := decoded_ok_built std _ _ _ hdec
    cases zones with
    | nil => simp [Run.steps, issuedFrom, canIssue, stepAccepted, hdec, hb]
    | cons zone0 rest =>
      simp only
      cases hid : assertString zone0 "id" with
      | error p => simp [Run.steps, issuedFrom, canIssue, stepAccepted, hdec, hb, hid]
      | ok zoneID =>
        simp only
        obtain ⟨h1, h2⟩ := resolveRecord_spec std quiet headers record ipapi zoneID remote
        rw [Run.steps_after, Run.outcome_after, h1, h2]
        have hacc : stepAccepted std remote .zone = true := by
          simp [stepAccepted, hdec, hid]
        constructor
        · conv_rhs => rw [issuedFrom]
          simp [canIssue, hb, hacc]
        · simp [hacc]

theorem pipeline_spec (std : StdLib) (quiet : Bool)
    (cfapikey cfemail domain record ipapi : String) (remote : Remote) :
    (pipeline std quiet cfapikey cfemail domain record ipapi remote).steps
      = issuedFrom std remote [.verify, .zone, .record, .ip, .update] ∧
    ((pipeline std quiet cfapikey cfemail domain record ipapi remote).outcome = .ok () ↔
      stepAccepted std remote .verify = true ∧ stepAccepted std remote .zone = true ∧
      stepAccepted std remote .record = true ∧ stepAccepted std remote .ip = true ∧
      payloadBuilt std remote = true ∧ stepAccepted std remote .update = true) := by
  unfold pipeline
  simp only
  rw [getJSON_ret, getJSON_calls_eq]
  cases hdec : decoded std std.UnmarshalObject remote.verify with
  | error e =>
    cases hb : requestBuilt remote.verify <;>
      simp [Run.steps, issuedFrom, canIssue, stepAccepted, hdec, hb]
  | ok result =>
    have hb := decoded_ok_built std _ _ _ hdec
    simp only
    obtain ⟨h1, h2⟩ := resolveZone_spec std quiet (authHeaders cfemail cfapikey) domain record
      ipapi remote
    rw [Run.steps_after, Run.outcome_after, h1, h2]
    have hacc : stepAccepted std remote .verify = true := by
      simp [stepAccepted, hdec]
    constructor
    · conv_rhs => rw [issuedFrom]
      simp [canIssue, hb, hacc]
    · simp [hacc]

/-- The function `main` is its startup followed by the pipeline. -/
theorem main_startup (std : StdLib) (args : CommandLine) (fs : FileSystem) (remote : Remote) :
    main std args fs remote =
      match startup std args fs with
      | .error p => Run.panic p
      | .ok (quiet, r) => pipeline std quiet r.cfapikey r.cfemail r.domain r.record r.ipapi remote := by
  unfold main startup
  rcases parseConfig std.Quote fs (flagValue "dyndns.cfg" args.optfile) with ⟨c, e⟩
  cases c with
  | none => cases e <;> rfl
  | some config =>
    cases e with
    | some err => rfl
    | none =>
      simp only
      cases resolveFlags args config.StringOptions <;> rfl

/-- Every way the fail-fast sequence of calls can end: at a call whose answer
is not accepted, before a call that cannot be issued (all calls issued having
been accepted), or after all five calls were issued and accepted. -/
theorem issuedFrom_classify (std : StdLib) (remote : Remote) :
    (∃ s, (issuedFrom std remote [.verify, .zone, .record, .ip, .update]).getLast? = some s ∧
      stepAccepted std remote s = false) ∨
    (∃ s, canIssue std remote s = false ∧
      s ∉ issuedFrom std remote [.verify, .zone, .record, .ip, .update] ∧
      ∀ t ∈ issuedFrom std remote [.verify, .zone, .record, .ip, .update],
        stepAccepted std remote t = true) ∨
    (issuedFrom std remote [.verify, .zone, .record, .ip, .update]
        = [.verify, .zone, .record, .ip, .update] ∧
      (∀ s, stepAccepted std remote s = true) ∧ canIssue std remote .update = true) := by
  cases hcv : canIssue std remote .verify
  · exact Or.inr (Or.inl ⟨.verify, hcv, by simp [issuedFrom, hcv], by simp [issuedFrom, hcv]⟩)
  cases hav : stepAccepted std remote .verify
  · exact Or.inl ⟨.verify, by simp [issuedFrom, hcv, hav], hav⟩
  cases hcz : canIssue std remote .zone
  · exact Or.inr (Or.inl ⟨.zone, hcz, by simp [issuedFrom, hcv, hav, hcz],
      by simp [issuedFrom, hcv, hav, hcz]⟩)
  cases haz : stepAccepted std remote .zone
  · exact Or.inl ⟨.zone, by simp [issuedFrom, hcv, hav, hcz, haz], haz⟩
  cases hcr : canIssue std remote .record
  · exact Or.inr (Or.inl ⟨.record, hcr, by simp [issuedFrom, hcv, hav, hcz, haz, hcr],
      by simp [issuedFrom, hcv, hav, hcz, haz, hcr]⟩)
  cases har : stepAccepted std remote .record
  · exact Or.inl ⟨.record, by simp [issuedFrom, hcv, hav, hcz, haz, hcr, har], har⟩
  cases hci : canIssue std remote .ip
  · exact Or.inr (Or.inl ⟨.ip, hci, by simp [issuedFrom, hcv, hav, hcz, haz, hcr, har, hci],
      by simp [issuedFrom, hcv, hav, hcz, haz, hcr, har, hci]⟩)
  cases hai : stepAccepted std remote .ip
  · exact Or.inl ⟨.ip, by simp [issuedFrom, hcv, hav, hcz, haz, hcr, har, hci, hai], hai⟩
  cases hcu : canIssue std remote .update
  · exact Or.inr (Or.inl ⟨.update, hcu,
      by simp [issuedFrom, hcv, hav, hcz, haz, hcr, har, hci, hai, hcu],
      by simp [issuedFrom, hcv, hav, hcz, haz, hcr, har, hci, hai, hcu]⟩)
  cases hau : stepAccepted std remote .update
  · exact Or.inl ⟨.update,
      by simp [issuedFrom, hcv, hav, hcz, haz, hcr, har, hci, hai, hcu, hau], hau⟩
  refine Or.inr (Or.inr ⟨by simp [issuedFrom, hcv, hav, hcz, haz, hcr, har, hci, hai, hcu, hau],
    ?_, rfl⟩)
  intro s
  cases s <;> assumption

/-- Claim C2, amended. The calls of a run of `main` form an initial part of
the order token verification, zone lookup, record lookup, IP discovery, record
update, and a call whose answer is not accepted is the last call of the run.
Once startup has succeeded, each call is issued exactly when the calls before
it were accepted and it can be issued (its request can be built and, for the
update, the payload can be built from the record). A startup that fails issues
no call. The run succeeds exactly when startup succeeds, the five answers are
accepted and the payload can be built. A run that fails is in one of three
cases: startup failed and no call was issued; the last call is one whose answer
was not accepted; or every call issued was accepted and the next call could
not be issued. So when startup succeeds and every call can be issued, the step
that fails is the last call in the trace. In particular a zone lookup that
returns no element is followed by no record lookup, IP discovery or update; a
token verification answered with a status other than 200 (403, say) by no
zone, record, IP or update call; and an IP endpoint answering a status other
than 200 (500, say) comes, when it is called, right after the record lookup
and is followed by no update. -/
theorem fail_fast_order (std : StdLib) (args : CommandLine) (fs : FileSystem)
    (remote : Remote) :
    (main std args fs remote).steps <+: [.verify, .zone, .record, .ip, .update] ∧
    (∀ s ∈ (main std args fs remote).steps, stepAccepted std remote s = false →
      (main std args fs remote).steps.getLast? = some s) ∧
    (∀ quiet r, startup std args fs = .ok (quiet, r) →
      (main std args fs remote).steps
        = issuedFrom std remote [.verify, .zone, .record, .ip, .update]) ∧
    (∀ p, startup std args fs = .error p →
      (main std args fs remote).steps = [] ∧ (main std args fs remote).outcome = .error p) ∧
    ((main std args fs remote).outcome = .ok () ↔
      (∃ quiet r, startup std args fs = .ok (quiet, r)) ∧
      (∀ s, stepAccepted std remote s = true) ∧ payloadBuilt std remote = true) ∧
    ((main std args fs remote).outcome ≠ .ok () →
      (∃ p, startup std args fs = .error p ∧ (main std args fs remote).steps = []) ∨
      (∃ s, (main std args fs remote).steps.getLast? = some s ∧
        stepAccepted std remote s = false) ∨
      (∃ s, canIssue std remote s = false ∧ s ∉ (main std args fs remote).steps ∧
        ∀ t ∈ (main std args fs remote).steps, stepAccepted std remote t = true)) ∧
    ((∃ quiet r, startup std args fs = .ok (quiet, r)) → (∀ s, canIssue std remote s = true) →
      (main std args fs remote).outcome ≠ .ok () →
      ∃ s, (main std args fs remote).steps.getLast? = some s ∧
        stepAccepted std remote s = false) ∧
    (decoded std std.UnmarshalObjects remote.zones = .ok [] →
      Step.record ∉ (main std args fs remote).steps ∧
      Step.ip ∉ (main std args fs remote).steps ∧
      Step.update ∉ (main std args fs remote).steps) ∧
    (∀ resp, remote.verify = .response resp → resp.StatusCode ≠ 200 →
      Step.zone ∉ (main std args fs remote).steps ∧
      Step.record ∉ (main std args fs remote).steps ∧
      Step.ip ∉ (main std args fs remote).steps ∧
      Step.update ∉ (main std args fs remote).steps) ∧
    (∀ resp, remote.ip = .response resp → resp.StatusCode ≠ 200 →
      Step.update ∉ (main std args fs remote).steps ∧
      (Step.ip ∈ (main std args fs remote).steps →
        (main std args fs remote).steps = [.verify, .zone, .record, .ip])) := by
  have hff := main_failFast std args fs remote
  have hmain := main_startup std args fs remote
  have hfail : (main std args fs remote).outcome ≠ .ok () →
      (∃ p, startup std args fs = .error p ∧ (main std args fs remote).steps = []) ∨
      (∃ s, (main std args fs remote).steps.getLast? = some s ∧
        stepAccepted std remote s = false) ∨
      (∃ s, canIssue std remote s = false ∧ s ∉ (main std args fs remote).steps ∧
        ∀ t ∈ (main std args fs remote).steps, stepAccepted std remote t = true) := by
    intro hne
    cases hs : startup std args fs with
    | error p =>
      rw [hs] at hmain
      exact Or.inl ⟨p, rfl, by rw [hmain]; rfl⟩
    | ok qr =>
      obtain ⟨quiet, r⟩ := qr
      rw [hs] at hmain
      simp only at hmain
      obtain ⟨h1, h2⟩ := pipeline_spec std quiet r.cfapikey r.cfemail r.domain r.record
        r.ipapi remote
      rw [← hmain] at h1 h2
      rw [h1]
      rcases issuedFrom_classify std remote with h | h | ⟨_, hall, hcu⟩
      · exact Or.inr (Or.inl h)
      · exact Or.inr (Or.inr h)
      · exfalso
        apply hne
        rw [h2]
        have hpay : payloadBuilt std remote = true := by
          simp only [canIssue, Bool.and_eq_true] at hcu
          exact hcu.1
        exact ⟨hall _, hall _, hall _, hall _, hpay, hall _⟩
  refine ⟨hff.1, hff.2, ?_, ?_, ?_, hfail, ?_, ?_, ?_, ?_⟩
  · intro quiet r hs
    rw [hmain, hs]
    exact (pipeline_spec std quiet r.cfapikey r.cfemail r.domain r.record r.ipapi remote).1
  · intro p hs
    rw [hmain, hs]
    exact ⟨rfl, rfl⟩
  · cases hs : startup std args fs with
    | error p =>
      rw [hmain, hs]
      simp [Run.panic]
    | ok qr =>
      obtain ⟨quiet, r⟩ := qr
      rw [hmain, hs]
      simp only
      rw [(pipeline_spec std quiet r.cfapikey r.cfemail r.domain r.record r.ipapi remote).2]
      constructor
      · rintro ⟨h1, h2, h3, h4, h5, h6⟩
        refine ⟨⟨quiet, r, rfl⟩, ?_, h5⟩
        intro s
        cases s <;> assumption
      · rintro ⟨_, hall, hpay⟩
        exact ⟨hall _, hall _, hall _, hall _, hpay, hall _⟩
  · rintro ⟨quiet, r, hs⟩ hcan hne
    rcases hfail hne with ⟨p, hp, _⟩ | h | ⟨s, hs1, _⟩
    · rw [hs] at hp
      cases hp
    · exact h
    · rw [hcan s] at hs1
      cases hs1
  · intro hz
    apply failFast_zone_rejected hff
    simp [stepAccepted, hz]
  · intro resp hv hst
    apply failFast_verify_rejected hff
    have hd : decoded std std.UnmarshalObject remote.verify
        = .error ("HTTP request failed with status " ++ toString resp.StatusCode) := by
      rw [hv]
      simp [decoded, getJSON, hst]
    simp [stepAccepted, hd]
  · intro resp hip hst
    apply failFast_ip_rejected hff
    simp [stepAccepted, hip, hst]

/-- Witness for C2: the zone lookup returns the empty list, and the run issues
the token verification and the zone lookup and nothing else; the token
verification answers 403; the IP endpoint answers 500 and, every call being
possible, the failing run ends with a call that was not accepted. -/
theorem fail_fast_order_witness :
    (main exampleStd CommandLine.none (oneFile "dyndns.cfg" exampleConfig)
      { exampleRemote "5.6.7.8" with zones := ok200 "\x7b\"result\":[]\x7d" }).steps
      = issuedFrom exampleStd
          { exampleRemote "5.6.7.8" with zones := ok200 "\x7b\"result\":[]\x7d" }
          [.verify, .zone, .record, .ip, .update] ∧
    issuedFrom exampleStd { exampleRemote "5.6.7.8" with zones := ok200 "\x7b\"result\":[]\x7d" }
      [.verify, .zone, .record, .ip, .update] = [.verify, .zone] ∧
    Step.record ∉ (main exampleStd CommandLine.none (oneFile "dyndns.cfg" exampleConfig)
      { exampleRemote "5.6.7.8" with zones := ok200 "\x7b\"result\":[]\x7d" }).steps ∧
    Step.zone ∉ (main exampleStd CommandLine.none (oneFile "dyndns.cfg" exampleConfig)
      { exampleRemote "5.6.7.8" with verify := .response ⟨403, "forbidden", none⟩ }).steps ∧
    Step.update ∉ (main exampleStd CommandLine.none (oneFile "dyndns.cfg" exampleConfig)
      { exampleRemote "5.6.7.8" with ip := .response ⟨500, "oops", none⟩ }).steps ∧
    (∃ s, (main exampleStd CommandLine.none (oneFile "dyndns.cfg" exampleConfig)
        { exampleRemote "5.6.7.8" with ip := .response ⟨500, "oops", none⟩ }).steps.getLast?
          = some s ∧
      stepAccepted exampleStd
        { exampleRemote "5.6.7.8" with ip := .response ⟨500, "oops", none⟩ } s = false) :=
  ⟨(fail_fast_order exampleStd CommandLine.none (oneFile "dyndns.cfg" exampleConfig)
      { exampleRemote "5.6.7.8" with zones := ok200 "\x7b\"result\":[]\x7d" }).2.2.1
      true ⟨"secret", "me@example.com", "example.com", "home.example.com",
        "https://api.ipify.org"⟩ (by decide),
   by decide,
   ((fail_fast_order exampleStd CommandLine.none (oneFile "dyndns.cfg" exampleConfig)
      { exampleRemote "5.6.7.8" with zones := ok200 "\x7b\"result\":[]\x7d" }).2.2.2.2.2.2.2.1
      (by decide)).1,
   ((fail_fast_order exampleStd CommandLine.none (oneFile "dyndns.cfg" exampleConfig)
      { exampleRemote "5.6.7.8" with verify := .response ⟨403, "forbidden", none⟩ }).2.2.2.2.2.2.2.2.1
      ⟨403, "forbidden", none⟩ rfl (by decide)).1,
   ((fail_fast_order exampleStd CommandLine.none (oneFile "dyndns.cfg" exampleConfig)
      { exampleRemote "5.6.7.8" with ip := .response ⟨500, "oops", none⟩ }).2.2.2.2.2.2.2.2.2
      ⟨500, "oops", none⟩ rfl (by decide)).1,
   (fail_fast_order exampleStd CommandLine.none (oneFile "dyndns.cfg" exampleConfig)
      { exampleRemote "5.6.7.8" with ip := .response ⟨500, "oops", none⟩ }).2.2.2.2.2.2.1
      ⟨true, ⟨"secret", "me@example.com", "example.com", "home.example.com",
        "https://api.ipify.org"⟩, by decide⟩
      (by intro s; cases s <;> decide) (by decide)⟩

/-! ## The IP-discovery endpoint of the configuration file -/

/-- With no flag on the command line, the four parameters without a default
are the entries of the configuration file, and the IP-discovery endpoint is
the default of the flag whatever the file says. -/
theorem resolveFlags_no_flags (m : GoMap String) (r : Resolved)
    (h : resolveFlags CommandLine.none m = .ok r) :
    r.cfapikey = m.get "" "cfapikey" ∧ r.cfemail = m.get "" "cfemail" ∧
    r.domain = m.get "" "domain" ∧ r.record = m.get "" "record" ∧
    r.ipapi = "https://api.ipify.org" := by
  have hc : ∀ (k msg v : String), checkFlag "" k m msg = .ok v → v = m.get "" k := by
    intro k msg v hv
    unfold checkFlag at hv
    simp only [if_true] at hv
    split at hv
    · cases hv
    · cases hv
      rfl
  have hd : ∀ (k msg v : String), checkFlag "https://api.ipify.org" k m msg = .ok v →
      v = "https://api.ipify.org" := by
    intro k msg v hv
    have h1 : checkFlag "https://api.ipify.org" k m msg = .ok "https://api.ipify.org" := by
      unfold checkFlag
      have e1 : ¬ ("https://api.ipify.org" = "") := by decide
      simp only [e1, if_false]
    rw [h1] at hv
    cases hv
    rfl
  unfold resolveFlags at h
  simp only [CommandLine.none, flagValue, Option.getD_none] at h
  cases h1 : checkFlag "" "cfapikey" m "No Cloudflare API key provided" with
  | error p => rw [h1] at h; cases h
  | ok v1 =>
    cases h2 : checkFlag "" "cfemail" m "No Cloudflare email address provided" with
    | error p => rw [h1, h2] at h; cases h
    | ok v2 =>
      cases h3 : checkFlag "" "domain" m "No domain provided" with
      | error p => rw [h1, h2, h3] at h; cases h
      | ok v3 =>
        cases h4 : checkFlag "" "record" m "No record provided" with
        | error p => rw [h1, h2, h3, h4] at h; cases h
        | ok v4 =>
          cases h5 : checkFlag "https://api.ipify.org" "ipapi" m "No IP API URL provided" with
          | error p => rw [h1, h2, h3, h4, h5] at h; cases h
          | ok v5 =>
            rw [h1, h2, h3, h4, h5] at h
            cases h
            exact ⟨hc _ _ _ h1, hc _ _ _ h2, hc _ _ _ h3, hc _ _ _ h4, hd _ _ _ h5⟩

/-- Claim C10, at the failing input. The configuration file has
`ipapi=http://ip.example/` in section `string` and no flag is given: the file is
parsed with that entry, and the IP-discovery request of the run goes to
`https://api.ipify.org`. -/
theorem ipapi_config_entry_ignored :
    (parseConfig plainQuote (oneFile "dyndns.cfg" configWithIpapi) "dyndns.cfg").1.map
        (fun c => c.StringOptions.get? "ipapi") = some (some "http://ip.example/") ∧
    ((main exampleStd CommandLine.none (oneFile "dyndns.cfg" configWithIpapi)
        (exampleRemote "5.6.7.8")).trace.filter (fun c => c.step = .ip)).map
        (fun c => c.request.URL) = ["https://api.ipify.org"] := by
  decide

end CfDyndns
